import Mathlib

/-!
# termit: the Lua binding layer (`src/lua_api.c`)

A shallow embedding of the command surface that termit registers with its
embedded Lua 5.1 interpreter, and of the part of the Lua C API that the
commands use.

* The interpreter is a record `LuaState`: the stack frame of the running C
  function (index 1 first, top last), the table heap, and the integer-keyed
  part of the registry that `luaL_ref` manages.
* The process around it is a record `Termit`: the interpreter `L`, the menu
  collections of `configs`, the list of calls made to host functions, and the
  lines written by the diagnostic macros.
* Every `lua_CFunction` is a function `Termit → Except LuaErr (Int × Termit)`.
  An `Except.error` is either a Lua error raised by the library (`lua_next`
  on a key that is not in the table) or a use of the API outside its contract.
* Loops over `lua_next` take a fuel argument.
-/

set_option autoImplicit false

namespace LuaApi

/-! ## Lua values and the interpreter state -/

/-- The type `lua_Number`, a C `double`: a finite value `(-1)^neg * m * 2^e`
(zero when `m = 0`), an infinity, or a NaN. Every double is of this form. -/
inductive LuaNumber where
  | finite (neg : Bool) (m : Nat) (e : Int)
  | inf (neg : Bool)
  | nan (neg : Bool)
deriving DecidableEq, Repr

instance (n : Nat) : OfNat LuaNumber n := ⟨.finite false n 0⟩

def LuaNumber.ofInt (v : Int) : LuaNumber :=
  .finite (decide (v < 0)) v.natAbs 0

/-- Lua values. Tables and functions are reference objects: a table is an
index into the heap, a function is the identity of a closure. Userdata and
threads are left aside. -/
inductive LuaValue where
  | nil
  | boolean (b : Bool)
  | number (x : LuaNumber)
  | string (s : String)
  | function (f : Nat)
  | table (r : Nat)
deriving DecidableEq, Repr

/-- The entries of a table in the traversal order of `lua_next`. -/
abbrev LuaTable := List (LuaValue × LuaValue)

/-- The interpreter: current stack frame, heap of tables, and the references
handed out by `luaL_ref` (reference `n` is `registry[n-1]`). -/
structure LuaState where
  stack : List LuaValue
  heap : List LuaTable
  registry : List LuaValue
deriving DecidableEq, Repr

/-- Errors that end a C function early. -/
inductive LuaErr where
  /-- Raised by `findindex`: `luaG_runerror(L, "invalid key to 'next'")`. -/
  | invalidKeyToNext
  /-- Use of `lua_next` on a value that is not a table. -/
  | notATable
  /-- A pop or a read of the top on a frame that holds too few values. -/
  | stackUnderflow
  /-- A loop was given too little fuel. -/
  | outOfFuel
deriving DecidableEq, Repr

deriving instance DecidableEq for Except

def LUA_REFNIL : Int := -1

def LUA_ERRRUN : Int := 2

/-- Position in the frame of an acceptable index: `i > 0` counts from the
bottom, `i < 0` from the top. `none` is a position outside the frame. -/
def stackPos (L : LuaState) (idx : Int) : Option Nat :=
  if 0 < idx then
    if idx.toNat ≤ L.stack.length then some (idx.toNat - 1) else none
  else if idx < 0 ∧ idx.natAbs ≤ L.stack.length then
    some (L.stack.length - idx.natAbs)
  else none

/-- Value at an index (`index2adr`); `none` is `LUA_TNONE`. -/
def index2adr (L : LuaState) (idx : Int) : Option LuaValue :=
  (stackPos L idx).bind fun p => L.stack.get? p

def lua_isnil (L : LuaState) (idx : Int) : Bool :=
  match index2adr L idx with
  | some .nil => true
  | _ => false

def lua_istable (L : LuaState) (idx : Int) : Bool :=
  match index2adr L idx with
  | some (.table _) => true
  | _ => false

def lua_isfunction (L : LuaState) (idx : Int) : Bool :=
  match index2adr L idx with
  | some (.function _) => true
  | _ => false

/-- Lua 5.1 `lua_isstring`: true for a string and for a number. -/
def lua_isstring (L : LuaState) (idx : Int) : Bool :=
  match index2adr L idx with
  | some (.string _) => true
  | some (.number _) => true
  | _ => false

/-- The fraction `n / d` rounded to the nearest integer, ties to even. -/
def roundHalfEven (n d : Nat) : Nat :=
  let q := n / d
  let r := n % d
  if 2 * r < d then q
  else if d < 2 * r then q + 1
  else if q % 2 = 0 then q else q + 1

/-- The fraction `num / den * b^k`. -/
def scaleBy (b : Nat) (num den : Nat) (k : Int) : Nat × Nat :=
  if 0 ≤ k then (num * b ^ k.toNat, den) else (num, den * b ^ (-k).toNat)

/-- Number of digits of `n` in base `b`. -/
def digitCount (b : Nat) (n : Nat) : Nat :=
  (Nat.toDigits b n).length

/-- The integer `g` with `b^g ≤ num / den < b^(g+1)`, for a positive
fraction. -/
def floorLog (b : Nat) (num den : Nat) : Int :=
  let g : Int := (digitCount b num : Int) - (digitCount b den : Int)
  let s := scaleBy b num den (-g)
  if s.2 ≤ s.1 then g else g - 1

def stripZeros (l : List Char) : List Char :=
  (l.reverse.dropWhile (fun c => c = '0')).reverse

def pad2 (l : List Char) : List Char :=
  if l.length < 2 then '0' :: l else l

/-- Text that `sprintf` gives for the positive number `num / den` under the
format `%.14g`: 14 significant digits, rounded to nearest with ties to even,
in exponent form when the decimal exponent is below -4 or from 14 on,
trailing zeros removed. -/
def fmt_g14 (num den : Nat) : List Char :=
  let x0 := floorLog 10 num den
  let s := scaleBy 10 num den (13 - x0)
  let d0 := roundHalfEven s.1 s.2
  let d := if d0 = 10 ^ 14 then 10 ^ 13 else d0
  let x := if d0 = 10 ^ 14 then x0 + 1 else x0
  let ds := Nat.toDigits 10 d
  if x < -4 ∨ 14 ≤ x then
    let frac := stripZeros ds.tail
    ds.take 1 ++ (if frac = [] then [] else '.' :: frac) ++
      ('e' :: (if x < 0 then '-' else '+') :: pad2 (Nat.toDigits 10 x.natAbs))
  else if 0 ≤ x then
    let frac := stripZeros (ds.drop (x.toNat + 1))
    ds.take (x.toNat + 1) ++ (if frac = [] then [] else '.' :: frac)
  else
    '0' :: '.' :: stripZeros (List.replicate ((-x).toNat - 1) '0' ++ ds)

/-- Text of a number, `lua_number2str`: `sprintf` with the format `%.14g`. -/
def lua_Number2str : LuaNumber → String
  | .nan neg => if neg then "-nan" else "nan"
  | .inf neg => if neg then "-inf" else "inf"
  | .finite neg m e =>
    if m = 0 then (if neg then "-0" else "0")
    else
      let f := scaleBy 2 m 1 e
      String.mk ((if neg then ['-'] else []) ++ fmt_g14 f.1 f.2)

/-- The double nearest to `(-1)^neg * num / den`, ties to even: 53 bits of
mantissa, exponent from -1074, an infinity from `2^1024` on. -/
def roundToDouble (neg : Bool) (num den : Nat) : LuaNumber :=
  if num = 0 then .finite neg 0 0
  else
    let k := floorLog 2 num den
    let e : Int := max (k - 52) (-1074)
    let s := scaleBy 2 num den (-e)
    let m0 := roundHalfEven s.1 s.2
    let m := if m0 = 2 ^ 53 then 2 ^ 52 else m0
    let e1 := if m0 = 2 ^ 53 then e + 1 else e
    if m = 0 then .finite neg 0 0
    else if 971 < e1 then .inf neg
    else .finite neg m e1

/-- The characters of the C `isspace`. -/
def isSpaceChar (c : Char) : Bool :=
  c = ' ' || c = '\t' || c = '\n' || c = '\r' || c.toNat = 11 || c.toNat = 12

def isHexChar (c : Char) : Bool :=
  c.isDigit || ('a' ≤ c && c ≤ 'f') || ('A' ≤ c && c ≤ 'F')

def hexVal (c : Char) : Nat :=
  if c.isDigit then c.toNat - '0'.toNat
  else if 'a' ≤ c ∧ c ≤ 'f' then c.toNat - 'a'.toNat + 10
  else c.toNat - 'A'.toNat + 10

def digitsValue (b : Nat) (cs : List Char) : Nat :=
  cs.foldl (fun acc c => b * acc + hexVal c) 0

/-- Removal of a prefix given in lower case, letter case ignored. -/
def dropPrefixCI : List Char → List Char → Option (List Char)
  | [], cs => some cs
  | _ :: _, [] => none
  | p :: ps, c :: cs => if c.toLower = p then dropPrefixCI ps cs else none

/-- Sign and digits after an exponent letter; `none` when no digit follows. -/
def exponentPart (cs : List Char) : Option (Int × List Char) :=
  let sg : Bool × List Char :=
    match cs with
    | '-' :: r => (true, r)
    | '+' :: r => (false, r)
    | r => (false, r)
  let ds := sg.2.takeWhile Char.isDigit
  if ds = [] then none
  else some ((if sg.1 then -(digitsValue 10 ds : Int) else (digitsValue 10 ds : Int)),
    sg.2.dropWhile Char.isDigit)

/-- The double nearest to `mant * b^k`; `hi` and `lo` are exponents from
which the result is an infinity or a zero whatever the mantissa. -/
def scaledDouble (neg : Bool) (b : Nat) (mant : Nat) (k : Int) (hi lo : Int) : LuaNumber :=
  if mant = 0 then .finite neg 0 0
  else if hi ≤ k then .inf neg
  else if (digitCount b mant : Int) + k ≤ lo then .finite neg 0 0
  else
    let s := scaleBy b mant 1 k
    roundToDouble neg s.1 s.2

/-- Hexadecimal floating constant after its `0x`. -/
def hexFloat (neg : Bool) (cs : List Char) : Option (LuaNumber × List Char) :=
  let ip := cs.takeWhile isHexChar
  let r1 := cs.dropWhile isHexChar
  let fp := match r1 with
    | '.' :: r => r.takeWhile isHexChar
    | _ => []
  let r2 := match r1 with
    | '.' :: r => r.dropWhile isHexChar
    | r => r
  if ip = [] ∧ fp = [] then none
  else
    let ex : Int × List Char :=
      match r2 with
      | 'p' :: r => (exponentPart r).getD (0, r2)
      | 'P' :: r => (exponentPart r).getD (0, r2)
      | _ => (0, r2)
    some (scaledDouble neg 2 (digitsValue 16 (ip ++ fp)) (ex.1 - 4 * (fp.length : Int))
      1024 (-1075), ex.2)

/-- Decimal floating constant. -/
def decFloat (neg : Bool) (cs : List Char) : Option (LuaNumber × List Char) :=
  let ip := cs.takeWhile Char.isDigit
  let r1 := cs.dropWhile Char.isDigit
  let fp := match r1 with
    | '.' :: r => r.takeWhile Char.isDigit
    | _ => []
  let r2 := match r1 with
    | '.' :: r => r.dropWhile Char.isDigit
    | r => r
  if ip = [] ∧ fp = [] then none
  else
    let ex : Int × List Char :=
      match r2 with
      | 'e' :: r => (exponentPart r).getD (0, r2)
      | 'E' :: r => (exponentPart r).getD (0, r2)
      | _ => (0, r2)
    some (scaledDouble neg 10 (digitsValue 10 (ip ++ fp)) (ex.1 - (fp.length : Int))
      309 (-324), ex.2)

/-- Rest of the text after `nan` and its optional `(n-char-sequence)`. -/
def nanTail (cs : List Char) : List Char :=
  match cs with
  | '(' :: r =>
    match r.dropWhile (fun c => c.isAlphanum || c = '_') with
    | ')' :: r1 => r1
    | _ => cs
  | _ => cs

/-- The C `strtod` in the "C" locale: the number read and the rest of the
text, `none` when no number can be read. -/
def strtod (s : List Char) : Option (LuaNumber × List Char) :=
  let cs := s.dropWhile isSpaceChar
  let sg : Bool × List Char :=
    match cs with
    | '-' :: r => (true, r)
    | '+' :: r => (false, r)
    | r => (false, r)
  match dropPrefixCI ['i', 'n', 'f'] sg.2 with
  | some r =>
    some (.inf sg.1, (dropPrefixCI ['i', 'n', 'i', 't', 'y'] r).getD r)
  | none =>
    match dropPrefixCI ['n', 'a', 'n'] sg.2 with
    | some r => some (.nan sg.1, nanTail r)
    | none =>
      match dropPrefixCI ['0', 'x'] sg.2 with
      | some r =>
        match hexFloat sg.1 r with
        | some res => some res
        | none => decFloat sg.1 sg.2
      | none => decFloat sg.1 sg.2

/-- The C `strtoul(s, &endptr, 16)` as `luaO_str2d` uses it: value as a
double and rest of the text. -/
def strtoul16 (s : List Char) : LuaNumber × List Char :=
  let cs := s.dropWhile isSpaceChar
  let sg : Bool × List Char :=
    match cs with
    | '-' :: r => (true, r)
    | '+' :: r => (false, r)
    | r => (false, r)
  let body : List Char :=
    match dropPrefixCI ['0', 'x'] sg.2 with
    | some r => if (r.head?.map isHexChar).getD false then r else sg.2
    | none => sg.2
  let ds := body.takeWhile isHexChar
  if ds = [] then (.finite false 0 0, s)
  else
    let v := digitsValue 16 ds
    let u : Nat := if 18446744073709551615 < v then 18446744073709551615
      else if sg.1 then (18446744073709551616 - v) % 18446744073709551616 else v
    (roundToDouble false u 1, body.dropWhile isHexChar)

/-- Conversion `luaO_str2d` of a C string: `strtod`, the second try with
`strtoul` when the number is followed by an `x`, then trailing blanks; `none`
is the result 0. -/
def luaO_str2d (s : List Char) : Option LuaNumber :=
  match strtod s with
  | none => none
  | some (v, rest) =>
    let r : LuaNumber × List Char :=
      match rest with
      | 'x' :: _ => strtoul16 s
      | 'X' :: _ => strtoul16 s
      | _ => (v, rest)
    if r.2.dropWhile isSpaceChar = [] then some r.1 else none

/-- A Lua string as C code reads it through a `const char*`: the text up to
the first NUL. -/
def cstr (s : String) : String :=
  String.mk (s.data.takeWhile (fun c => c ≠ Char.ofNat 0))

/-- The macro `lua_number2integer`, the cast `(lua_Integer)(d)` to the 64-bit
`ptrdiff_t`: the number cut towards zero. Outside the range of the integer
type, where C leaves the cast undefined, the value is the one x86-64 gives. -/
def lua_number2integer : LuaNumber → Int
  | .finite neg m e =>
    let t : Nat := if 0 ≤ e then m * 2 ^ e.toNat else m / 2 ^ (-e).toNat
    let v : Int := if neg then -(t : Int) else (t : Int)
    if -9223372036854775808 ≤ v ∧ v < 9223372036854775808 then v else -9223372036854775808
  | _ => -9223372036854775808

/-- The `tonumber` test of lvm.h: a number, or a string that converts. -/
def tonumber (v : Option LuaValue) : Option LuaNumber :=
  match v with
  | some (.number x) => some x
  | some (.string s) => luaO_str2d (cstr s).data
  | _ => none

def lua_isnumber (L : LuaState) (idx : Int) : Bool :=
  (tonumber (index2adr L idx)).isSome

/-- Value of `lua_tointeger`: the converted number cut to an integer, `0`
when there is none. -/
def lua_tointeger (L : LuaState) (idx : Int) : Int :=
  match tonumber (index2adr L idx) with
  | some x => lua_number2integer x
  | none => 0

/-- Narrowing of an integer to the 32-bit C `int`. -/
def toCInt (x : Int) : Int :=
  (x + 2147483648) % 4294967296 - 2147483648

/-- Lua 5.1 `lua_tostring` (`lua_tolstring` without length): the result is a
`const char*`, given here by the C string behind it, `none` for `NULL`. A
string is returned as it is, so that it reads up to its first NUL; a number is
first replaced IN THE STACK SLOT by its text; any other value gives `NULL`. -/
def lua_tostring (L : LuaState) (idx : Int) : Option String × LuaState :=
  match stackPos L idx with
  | none => (none, L)
  | some p =>
    match L.stack.get? p with
    | some (.string s) => (some (cstr s), L)
    | some (.number n) =>
      (some (lua_Number2str n),
        { L with stack := L.stack.set p (.string (lua_Number2str n)) })
    | _ => (none, L)

def lua_pushnil (L : LuaState) : LuaState :=
  { L with stack := L.stack ++ [LuaValue.nil] }

def lua_pushvalue (L : LuaState) (v : LuaValue) : LuaState :=
  { L with stack := L.stack ++ [v] }

/-- Removal of the top `n` values, `lua_pop(L, n)`. -/
def lua_pop (L : LuaState) (n : Nat) : Except LuaErr LuaState :=
  if n ≤ L.stack.length then
    .ok { L with stack := L.stack.take (L.stack.length - n) }
  else .error .stackUnderflow

/-- The table behind reference `r`. -/
def tableAt (L : LuaState) (r : Nat) : LuaTable :=
  L.heap.getD r []

/-- Equality of numbers, `luai_numeq`: the C `==` on doubles. -/
def luai_numeq : LuaNumber → LuaNumber → Bool
  | .finite n1 m1 e1, .finite n2 m2 e2 =>
    if m1 = 0 ∨ m2 = 0 then decide (m1 = m2)
    else n1 = n2 && decide ((scaleBy 2 m1 1 e1).1 * (scaleBy 2 m2 1 e2).2
      = (scaleBy 2 m2 1 e2).1 * (scaleBy 2 m1 1 e1).2)
  | .inf n1, .inf n2 => n1 = n2
  | _, _ => false

/-- Raw equality of values, `luaO_rawequalObj`. -/
def luaO_rawequalObj : LuaValue → LuaValue → Bool
  | .number a, .number b => luai_numeq a b
  | a, b => decide (a = b)

/-- Successor of `key` in a table, `luaH_next`: the first entry for the key
`nil`, the entry after the one stored under `key` otherwise; a key that the
table does not hold raises the error "invalid key to 'next'". -/
def luaH_next (t : LuaTable) (key : LuaValue) : Except LuaErr (Option (LuaValue × LuaValue)) :=
  match key with
  | .nil => .ok t.head?
  | k =>
    match t.dropWhile (fun e => !luaO_rawequalObj e.1 k) with
    | [] => .error .invalidKeyToNext
    | _ :: rest => .ok rest.head?

/-- Lua 5.1 `lua_next(L, idx)`: pops a key; pushes the next key and value of
the table at `idx` and returns 1, or pushes nothing and returns 0 at the end
of the table. -/
def lua_next (L : LuaState) (idx : Int) : Except LuaErr (Int × LuaState) :=
  match index2adr L idx with
  | some (.table r) =>
    match L.stack.getLast? with
    | none => .error .stackUnderflow
    | some key =>
      match luaH_next (tableAt L r) key with
      | .error e => .error e
      | .ok none => .ok (0, { L with stack := L.stack.dropLast })
      | .ok (some (k, v)) => .ok (1, { L with stack := L.stack.dropLast ++ [k, v] })
  | _ => .error .notATable

/-- Value stored under reference `n`, `lua_rawgeti(L, LUA_REGISTRYINDEX, n)`
as a value: `nil` for an integer that is no reference. -/
def registryGet (L : LuaState) (n : Int) : LuaValue :=
  if 1 ≤ n then L.registry.getD (n.toNat - 1) .nil else .nil

def lua_rawgeti_registry (L : LuaState) (n : Int) : LuaState :=
  lua_pushvalue L (registryGet L n)

/-- Call `luaL_ref(L, LUA_REGISTRYINDEX)`: pops the TOP of the stack; a `nil`
gives `LUA_REFNIL`, any other value is stored under a new reference (no
reference is ever released in this program, so the free list is empty). -/
def luaL_ref (L : LuaState) : Except LuaErr (Int × LuaState) :=
  match L.stack.getLast? with
  | none => .error .stackUnderflow
  | some .nil => .ok (LUA_REFNIL, { L with stack := L.stack.dropLast })
  | some v =>
    .ok ((L.registry.length : Int) + 1,
      { L with stack := L.stack.dropLast, registry := L.registry ++ [v] })

/-! ## The host side -/

/-- The two policies of `enum TermitKbPolicy` that this file names. -/
inductive TermitKbPolicy where
  | TermitKbUseKeycode
  | TermitKbUseKeysym
deriving DecidableEq, Repr

/-- The record `struct TabInfo` as this file uses it: four C strings, `none`
for NULL. -/
structure TabInfo where
  name : Option String
  command : Option String
  encoding : Option String
  working_dir : Option String
deriving DecidableEq, Repr

/-- The record `struct UserMenuItem` as this file uses it. -/
structure UserMenuItem where
  name : Option String
  userFunc : Option String
deriving DecidableEq, Repr

/-- The record `struct UserMenu`; `items` is the `GArray` of its items. -/
structure UserMenu where
  name : Option String
  items : List UserMenuItem
deriving DecidableEq, Repr

/-- The two menu arrays of the global `configs`. -/
structure Configs where
  user_menus : List UserMenu
  user_popup_menus : List UserMenu
deriving DecidableEq, Repr

/-- Calls to the host functions declared in termit_core_api.h, keybindings.h
and configs.h, and lines put on the error channel. -/
inductive HostCall where
  | termit_bind_key (keybinding : Option String) (func : Int)
  | termit_set_kb_policy (kbp : TermitKbPolicy)
  | termit_activate_tab (tab_index : Int)
  | termit_append_tab
  | termit_append_tab_with_details (ti : TabInfo)
  /-- A line on the error channel: the `ERROR` macro, and the `g_fprintf` to
  `stderr` of `termit_report_lua_error`. -/
  | report_error (msg : String)
deriving DecidableEq, Repr

/-- The process: interpreter, configuration, host calls made so far (oldest
first), and trace lines written so far. -/
structure Termit where
  L : LuaState
  configs : Configs
  calls : List HostCall
  traces : List String
deriving DecidableEq, Repr

def hostCall (c : HostCall) (w : Termit) : Termit :=
  { w with calls := w.calls ++ [c] }

/-- Modelled from the spec: the macros `TRACE`, `TRACE_MSG` and `TRACE_FUNC`
of termit.h are not in src; section 6 of the spec gives the trace channel
`trace(message)`, apart from the error channel `report_error(message)`. -/
def TRACE_MSG (msg : String) (w : Termit) : Termit :=
  { w with traces := w.traces ++ [msg] }

/-- Modelled from the spec: the macro `ERROR` of termit.h is not in src;
section 6 of the spec gives the error channel `report_error(message)`. -/
def ERROR (msg : String) (w : Termit) : Termit :=
  hostCall (.report_error msg) w

/-- Comparison of two texts character by character. -/
def cmpChars : List Char → List Char → Int
  | [], [] => 0
  | [], _ :: _ => -1
  | _ :: _, [] => 1
  | a :: as, b :: bs =>
    if a = b then cmpChars as bs else if a.toNat < b.toNat then -1 else 1

/-- The C `strcmp` on C strings: 0 exactly when the two texts agree. A `NULL`
first argument, which C does not allow, counts as different. -/
def strcmp (a : Option String) (b : String) : Int :=
  match a with
  | some s => cmpChars s.data b.data
  | none => 1

/-- The GLib `g_strdup`: a copy of the C string, `NULL` for `NULL`. -/
def g_strdup (s : Option String) : Option String :=
  s

/-- Text that `%s` prints for a C string. -/
def fmt_s (s : Option String) : String :=
  s.getD "(null)"

def setL (w : Termit) (L : LuaState) : Termit :=
  { w with L := L }

/-! ## `bindKey`, `setKbPolicy`, `activateTab` -/

def termit_lua_bindKey (w : Termit) : Except LuaErr (Int × Termit) :=
  let w := TRACE_MSG "termit_lua_bindKey" w
  if lua_isnil w.L 1 || lua_isnil w.L 2 then
    .ok (0, TRACE_MSG "nil args: skipping" w)
  else if !lua_isstring w.L 1 || !lua_isfunction w.L 2 then
    .ok (0, TRACE_MSG "bad args: skipping" w)
  else
    let (keybinding, L1) := lua_tostring w.L 1
    match luaL_ref L1 with
    | .error e => .error e
    | .ok (func, L2) =>
      let w := hostCall (.termit_bind_key keybinding func) (setL w L2)
      .ok (0, TRACE_MSG ("bindKey: " ++ fmt_s keybinding ++ " - " ++ toString func) w)

def termit_lua_setKbPolicy (w : Termit) : Except LuaErr (Int × Termit) :=
  if lua_isnil w.L 1 then
    .ok (0, TRACE_MSG "no kbPolicy defined: skipping" w)
  else if !lua_isstring w.L 1 then
    .ok (0, TRACE_MSG "kbPolicy is not string: skipping" w)
  else
    let (val, L1) := lua_tostring w.L 1
    let w := TRACE_MSG ("setKbPolicy: " ++ fmt_s val) (setL w L1)
    if strcmp val "keycode" = 0 then
      .ok (0, hostCall (.termit_set_kb_policy .TermitKbUseKeycode) w)
    else if strcmp val "keysym" = 0 then
      .ok (0, hostCall (.termit_set_kb_policy .TermitKbUseKeysym) w)
    else
      .ok (0, ERROR ("unknown kbPolicy: " ++ fmt_s val) w)

def termit_lua_activateTab (w : Termit) : Except LuaErr (Int × Termit) :=
  if lua_isnil w.L 1 then
    .ok (0, TRACE_MSG "no tabNum defined: skipping" w)
  else if !lua_isnumber w.L 1 then
    .ok (0, TRACE_MSG "tabNum is not number: skipping" w)
  else
    let tab_index : Int := toCInt (lua_tointeger w.L 1)
    .ok (0, hostCall (.termit_activate_tab (toCInt (tab_index - 1))) w)

/-! ## The callback registry: `termit_lua_dofunction` -/

/-- Behaviour of the script closures, given by the interpreter: closure `f`
run in a frame of its own on the current process returns the process it leaves
behind and the error value it raised, if any. -/
abbrev Script := Nat → Termit → Option LuaValue × Termit

def typeName : LuaValue → String
  | .nil => "nil"
  | .boolean _ => "boolean"
  | .number _ => "number"
  | .string _ => "string"
  | .function _ => "function"
  | .table _ => "table"

/-- Lua 5.1 `lua_pcall(L, 0, 0, 0)`: pops the function on top and calls it
with no argument for no result, in protected mode. Status 0 leaves nothing on
the caller's frame; an error leaves the error value on it. Metatables are
left aside: a value that is not a function cannot be called. -/
def lua_pcall (script : Script) (w : Termit) : Except LuaErr (Int × Termit) :=
  match w.L.stack.getLast? with
  | none => .error .stackUnderflow
  | some (.function f) =>
    match script f (setL w { w.L with stack := [] }) with
    | (none, w1) => .ok (0, setL w1 { w1.L with stack := w.L.stack.dropLast })
    | (some msg, w1) =>
      .ok (LUA_ERRRUN, setL w1 { w1.L with stack := w.L.stack.dropLast ++ [msg] })
  | some v =>
    .ok (LUA_ERRRUN, setL w { w.L with stack := w.L.stack.dropLast ++
      [LuaValue.string ("attempt to call a " ++ typeName v ++ " value")] })

def termit_lua_dofunction (script : Script) (f : Int) (w : Termit) :
    Except LuaErr (Int × Termit) :=
  if f ≠ LUA_REFNIL then
    let w := setL w (lua_rawgeti_registry w.L f)
    match lua_pcall script w with
    | .error e => .error e
    | .ok (status, w) =>
      if status ≠ 0 then
        let (msg, L1) := lua_tostring w.L (-1)
        let w := TRACE_MSG ("error running function: " ++ fmt_s msg) (setL w L1)
        match lua_pop w.L 1 with
        | .error e => .error e
        | .ok L2 => .ok (0, setL w L2)
      else .ok (1, w)
  else .ok (0, w)

def termit_report_lua_error (status : Int) (w : Termit) : Except LuaErr Termit :=
  if status = 0 then .ok w
  else
    let w := TRACE_MSG "lua error:" w
    let (msg, L1) := lua_tostring w.L (-1)
    let w := hostCall (.report_error (fmt_s msg ++ "\n")) (setL w L1)
    match lua_pop w.L 1 with
    | .error e => .error e
    | .ok L2 => .ok (setL w L2)

/-! ## The table walker and the tab loader -/

inductive LoaderResult where
  | LOADER_OK
  | LOADER_FAILED
deriving DecidableEq, Repr

/-- A visitor `void (*)(const gchar*, lua_State*, int, void*)`: it may write
to the process and to the record behind `data`. -/
abbrev LoaderFunc (δ : Type) := Option String → Termit → Int → δ → Termit × δ

/-- The `while (lua_next(ls, 1) != 0)` loop of `load_lua_table`. -/
def load_lua_table_loop {δ : Type} (func : LoaderFunc δ) :
    Nat → Termit → δ → Except LuaErr (Termit × δ)
  | 0, _, _ => .error .outOfFuel
  | fuel + 1, w, data =>
    match lua_next w.L 1 with
    | .error e => .error e
    | .ok (more, L1) =>
      if more ≠ 0 then
        let w1 := setL w L1
        let r :=
          if lua_isstring w1.L (-2) then
            let (name, L2) := lua_tostring w1.L (-2)
            func name (setL w1 L2) (-1) data
          else (w1, data)
        match lua_pop r.1.L 1 with
        | .error e => .error e
        | .ok L3 => load_lua_table_loop func fuel (setL r.1 L3) r.2
      else .ok (setL w L1, data)

/-- The walker. `data = none` is the NULL pointer; the result carries the
record behind `data` as the visitor left it. -/
def load_lua_table {δ : Type} (fuel : Nat) (w : Termit) (func : LoaderFunc δ)
    (data : Option δ) : Except LuaErr (LoaderResult × Termit × Option δ) :=
  match data with
  | none => .ok (.LOADER_FAILED, TRACE_MSG "data is NULL: skipping" w, none)
  | some d =>
    if lua_isnil w.L 1 then
      .ok (.LOADER_FAILED, TRACE_MSG "tabInfo not defined: skipping" w, some d)
    else if !lua_istable w.L 1 then
      let w := TRACE_MSG "tabInfo is not table: skipping" w
      match lua_pop w.L 1 with
      | .error e => .error e
      | .ok L1 => .ok (.LOADER_FAILED, setL w L1, some d)
    else
      match load_lua_table_loop func fuel (setL w (lua_pushnil w.L)) d with
      | .error e => .error e
      | .ok (w1, d1) =>
        match lua_pop w1.L 1 with
        | .error e => .error e
        | .ok L1 => .ok (.LOADER_OK, setL w1 L1, some d1)

def tabLoader : LoaderFunc TabInfo := fun name w index ti =>
  if strcmp name "name" = 0 ∧ lua_isstring w.L index then
    let (value, L1) := lua_tostring w.L index
    (TRACE_MSG ("  " ++ fmt_s name ++ " - " ++ fmt_s value) (setL w L1),
      { ti with name := g_strdup value })
  else if strcmp name "command" = 0 ∧ lua_isstring w.L index then
    let (value, L1) := lua_tostring w.L index
    (TRACE_MSG ("  " ++ fmt_s name ++ " - " ++ fmt_s value) (setL w L1),
      { ti with command := g_strdup value })
  else if strcmp name "encoding" = 0 ∧ lua_isstring w.L index then
    let (value, L1) := lua_tostring w.L index
    (TRACE_MSG ("  " ++ fmt_s name ++ " - " ++ fmt_s value) (setL w L1),
      { ti with encoding := g_strdup value })
  else if strcmp name "working_dir" = 0 ∧ lua_isstring w.L index then
    let (value, L1) := lua_tostring w.L index
    (TRACE_MSG ("  " ++ fmt_s name ++ " - " ++ fmt_s value) (setL w L1),
      { ti with working_dir := g_strdup value })
  else (w, ti)

/-- The zeroed `struct TabInfo ti = {0}`. -/
def TabInfo.zero : TabInfo :=
  { name := none, command := none, encoding := none, working_dir := none }

def termit_lua_openTab (fuel : Nat) (w : Termit) : Except LuaErr (Int × Termit) :=
  let w := TRACE_MSG "termit_lua_openTab" w
  if lua_istable w.L 1 then
    match load_lua_table fuel w tabLoader (some TabInfo.zero) with
    | .error e => .error e
    | .ok (res, w1, ti) =>
      if res ≠ .LOADER_OK then .ok (0, w1)
      else .ok (0, hostCall (.termit_append_tab_with_details (ti.getD TabInfo.zero)) w1)
  else .ok (0, hostCall .termit_append_tab w)

/-- A visitor that records each call: the name it was given and the value it
finds at its index. -/
def recordVisit : LoaderFunc (List (Option String × Option LuaValue)) :=
  fun name w index seen => (w, seen ++ [(name, index2adr w.L index)])

/-! ## Menus -/

/-- The inner `while (lua_next(ls, -2) != 0)` loop of `loadMenu`. -/
def loadMenu_item_loop : Nat → Termit → UserMenuItem → Except LuaErr (Termit × UserMenuItem)
  | 0, _, _ => .error .outOfFuel
  | fuel + 1, w, umi =>
    match lua_next w.L (-2) with
    | .error e => .error e
    | .ok (more, L1) =>
      if more ≠ 0 then
        let r : LuaState × UserMenuItem :=
          if lua_isstring L1 (-2) then
            let (name, L2) := lua_tostring L1 (-2)
            let (value, L3) := lua_tostring L2 (-1)
            if strcmp name "name" = 0 then (L3, { umi with name := g_strdup value })
            else if strcmp name "action" = 0 then
              (L3, { umi with userFunc := g_strdup value })
            else (L3, umi)
          else (L1, umi)
        match lua_pop r.1 1 with
        | .error e => .error e
        | .ok L4 => loadMenu_item_loop fuel (setL w L4) r.2
      else .ok (setL w L1, umi)

/-- The outer `while (lua_next(ls, 1) != 0)` loop of `loadMenu`; `inner` is
the fuel of each inner loop. -/
def loadMenu_loop (inner : Nat) :
    Nat → Termit → List UserMenuItem → Except LuaErr (Termit × List UserMenuItem)
  | 0, _, _ => .error .outOfFuel
  | fuel + 1, w, items =>
    match lua_next w.L 1 with
    | .error e => .error e
    | .ok (more, L1) =>
      if more ≠ 0 then
        if lua_isstring L1 (-2) then
          match loadMenu_item_loop inner (setL w (lua_pushnil L1))
              { name := none, userFunc := none } with
          | .error e => .error e
          | .ok (w2, umi) =>
            match lua_pop w2.L 1 with
            | .error e => .error e
            | .ok L3 => loadMenu_loop inner fuel (setL w2 L3) (items ++ [umi])
        else
          match lua_pop L1 1 with
          | .error e => .error e
          | .ok L3 => loadMenu_loop inner fuel (setL w L3) items
      else .ok (setL w L1, items)

/-- The function `loadMenu(ls, menus)`; the array behind `menus` is passed in
and handed back. -/
def loadMenu (fuel : Nat) (w : Termit) (menus : List UserMenu) :
    Except LuaErr (Int × Termit × List UserMenu) :=
  let r : Except LuaErr (Int × Termit × List UserMenu) :=
    if lua_isnil w.L 1 || lua_isnil w.L 2 then
      .ok (-1, TRACE_MSG "menu not defined: skipping" w, menus)
    else if !lua_istable w.L 1 || !lua_isstring w.L 2 then
      .ok (-1, TRACE_MSG "menu is not table: skipping" w, menus)
    else
      let (menuName, L1) := lua_tostring w.L 2
      let w1 := TRACE_MSG ("Menu: " ++ fmt_s menuName) (setL w L1)
      match loadMenu_loop fuel fuel (setL w1 (lua_pushnil w1.L)) [] with
      | .error e => .error e
      | .ok (w2, items) => .ok (0, w2, menus ++ [{ name := g_strdup menuName, items := items }])
  match r with
  | .error e => .error e
  | .ok (res, w1, menus1) =>
    let w2 := TRACE_MSG "loadMenu" w1
    match lua_pop w2.L 1 with
    | .error e => .error e
    | .ok L2 => .ok (res, TRACE_MSG "loadMenu" (setL w2 L2), menus1)

def termit_lua_addMenu (fuel : Nat) (w : Termit) : Except LuaErr (Int × Termit) :=
  match loadMenu fuel w w.configs.user_menus with
  | .error e => .error e
  | .ok (res, w1, menus) =>
    let w2 := { w1 with configs := { w1.configs with user_menus := menus } }
    if res < 0 then .ok (0, ERROR "addMenu failed" w2) else .ok (0, w2)

def termit_lua_addPopupMenu (fuel : Nat) (w : Termit) : Except LuaErr (Int × Termit) :=
  match loadMenu fuel w w.configs.user_popup_menus with
  | .error e => .error e
  | .ok (res, w1, menus) =>
    let w2 := { w1 with configs := { w1.configs with user_popup_menus := menus } }
    if res < 0 then .ok (0, ERROR "addMenu failed" w2) else .ok (0, w2)

/-! ## Reading aids for the statements -/

/-- The C string that `lua_tostring` returns for a value: a string up to its
first NUL, the text of a number, `NULL` for any other value. -/
def luaV_tostring : LuaValue → Option String
  | .string s => some (cstr s)
  | .number x => some (lua_Number2str x)
  | _ => none

/-- The frame a closure starts in when `lua_pcall` calls it with no argument
from the process `w`. -/
def calleeFrame (w : Termit) : Termit :=
  setL w { w.L with stack := [] }

def isNumber : LuaValue → Bool
  | .number _ => true
  | _ => false

def isString : LuaValue → Bool
  | .string _ => true
  | _ => false

/-- Value stored under a key, `none` when the table has no such key. -/
def luaH_get : LuaTable → LuaValue → Option LuaValue
  | [], _ => none
  | (k1, v) :: t, k => if k1 = k then some v else luaH_get t k

/-- Tables without number keys as the interpreter builds them: no key twice,
no `nil` key. -/
abbrev TableWF (t : LuaTable) : Prop :=
  (t.map Prod.fst).Nodup ∧ LuaValue.nil ∉ t.map Prod.fst

abbrev NoNumberKey (t : LuaTable) : Prop :=
  ∀ e ∈ t, isNumber e.1 = false

/-- Tables as the interpreter builds them, number keys included: no two keys
raw-equal, every key equal to itself (no NaN) and not `nil`. -/
abbrev KeysWF (t : LuaTable) : Prop :=
  (t.map Prod.fst).Pairwise (fun a b => luaO_rawequalObj a b = false) ∧
    ∀ k ∈ t.map Prod.fst, k ≠ LuaValue.nil ∧ luaO_rawequalObj k k = true

/-- A key that is not a string with a NUL inside. -/
def nulFreeKey : LuaValue → Bool
  | .string s => decide (cstr s = s)
  | _ => true

/-- A key that reads, through `lua_tostring` and `strcmp`, as the name `key`:
a string whose text up to the first NUL is `key`. -/
def keyReads (key : String) (k : LuaValue) : Bool :=
  match k with
  | .string s => decide (cstr s = key)
  | _ => false

/-- The C string of the value of the last entry, in table order, that
satisfies `p`; `dflt` when there is none. -/
def lastText (p : LuaValue × LuaValue → Bool) (t : LuaTable) (dflt : Option String) :
    Option String :=
  match (t.filter p).getLast? with
  | some e => luaV_tostring e.2
  | none => dflt

/-- The entries that `tabLoader` takes for the field `key`: the key reads as
`key` and the value is a string or a number. -/
def tabEntry (key : String) (e : LuaValue × LuaValue) : Bool :=
  keyReads key e.1 && (luaV_tostring e.2).isSome

/-- What a theorem about the walker assumes of its visitor: called with a
name on a frame whose top value is `v`, it leaves the frame below the top and
the heap as they are, and `R name v d d1` holds of the record `d` it got and
the record `d1` it leaves. -/
def VisitorSpec {δ : Type} (func : LoaderFunc δ)
    (R : String → LuaValue → δ → δ → Prop) : Prop :=
  ∀ name w d base v, w.L.stack = base ++ [v] →
    R name v d (func (some name) w (-1) d).2 ∧
    (∃ v1, (func (some name) w (-1) d).1.L.stack = base ++ [v1]) ∧
    (func (some name) w (-1) d).1.L.heap = w.L.heap

/-- The records that one visit per string-keyed entry, in table order, can
lead to. -/
def visitRel {δ : Type} (R : String → LuaValue → δ → δ → Prop) : LuaTable → δ → δ → Prop
  | [], d, d1 => d1 = d
  | (.string s, v) :: post, d, d1 => ∃ d2, R (cstr s) v d d2 ∧ visitRel R post d2 d1
  | _ :: post, d, d1 => visitRel R post d d1

/-- What one call of `tabLoader` makes of the record, told by the name and
the value it is called on. -/
def tabStep (name : String) (v : LuaValue) (ti : TabInfo) : TabInfo :=
  match luaV_tostring v with
  | none => ti
  | some s =>
    if name = "name" then { ti with name := some s }
    else if name = "command" then { ti with command := some s }
    else if name = "encoding" then { ti with encoding := some s }
    else if name = "working_dir" then { ti with working_dir := some s }
    else ti

/-- The tab description that a table holds: for each field the text of the
last entry that `tabLoader` takes for it, unset when there is none. -/
def tabInfoOf (t : LuaTable) : TabInfo :=
  { name := lastText (tabEntry "name") t none,
    command := lastText (tabEntry "command") t none,
    encoding := lastText (tabEntry "encoding") t none,
    working_dir := lastText (tabEntry "working_dir") t none }

/-- The calls `recordVisit` is expected to record on a table: one per
string-keyed entry, in table order. -/
def stringEntries : LuaTable → List (Option String × Option LuaValue)
  | [] => []
  | (.string s, v) :: t => (some (cstr s), some v) :: stringEntries t
  | _ :: t => stringEntries t

/-- What one round of the inner loop of `loadMenu` makes of the item, told by
the key text and the value. -/
def itemStep (name : String) (v : LuaValue) (umi : UserMenuItem) : UserMenuItem :=
  if name = "name" then { umi with name := luaV_tostring v }
  else if name = "action" then { umi with userFunc := luaV_tostring v }
  else umi

def itemFold : LuaTable → UserMenuItem → UserMenuItem
  | [], umi => umi
  | (.string s, v) :: t, umi => itemFold t (itemStep (cstr s) v umi)
  | _ :: t, umi => itemFold t umi

/-- The menu item described by a nested table: `name` is the C string of the
value of its last entry whose key reads as "name", `userFunc` that of the last
entry whose key reads as "action"; a field is unset when there is no such
entry or that value is neither a string nor a number. -/
def itemOf (L : LuaState) (v : LuaValue) : UserMenuItem :=
  match v with
  | .table q =>
    { name := lastText (fun e => keyReads "name" e.1) (tableAt L q) none,
      userFunc := lastText (fun e => keyReads "action" e.1) (tableAt L q) none }
  | _ => { name := none, userFunc := none }

/-- The items of a menu table: one per entry whose key is a string or a
number, in table order. -/
def menuItems (L : LuaState) : LuaTable → List UserMenuItem
  | [] => []
  | (k, v) :: t =>
    if (luaV_tostring k).isSome then itemOf L v :: menuItems L t else menuItems L t

/-- An entry of a menu table that `loadMenu` handles with inner fuel `inner`:
under a string or number key, a table that is well formed, has no number key
and fewer than `inner` entries. -/
def menuEntryOK (L : LuaState) (inner : Nat) (e : LuaValue × LuaValue) : Bool :=
  match luaV_tostring e.1 with
  | none => true
  | some _ =>
    match e.2 with
    | .table q =>
      decide (TableWF (tableAt L q)) && decide (NoNumberKey (tableAt L q)) &&
        decide ((tableAt L q).length < inner)
    | _ => false

/-! ## Concrete processes used by the examples -/

/-- A process with the given frame and heap, nothing registered, no menu, no
host call made. -/
def world (stack : List LuaValue) (heap : List LuaTable) : Termit :=
  { L := { stack := stack, heap := heap, registry := [] },
    configs := { user_menus := [], user_popup_menus := [] },
    calls := [], traces := [] }

/-- The process at the call `addMenu(t, "M")` where `t` has two items under
string keys, the first with a name only, the second with an action only. -/
def twoItemWorld : Termit :=
  world [.table 0, .string "M"]
    [[(.string "a", .table 1), (.string "b", .table 2)],
     [(.string "name", .string "n1")],
     [(.string "action", .string "a2")]]

/-- A script with two closures: closure 0 raises the error "boom", every
other closure returns normally; neither touches the process. -/
def boomScript : Script := fun f w =>
  if f = 0 then (some (.string "boom"), w) else (none, w)

/-- A process in which reference 1 is closure 0 and reference 2 is closure 1,
with one value on the frame. -/
def callbackWorld : Termit :=
  { L := { stack := [.string "below"], heap := [],
           registry := [.function 0, .function 1] },
    configs := { user_menus := [], user_popup_menus := [] },
    calls := [], traces := [] }

/-! ## Facts about the API primitives -/

theorem lua_isstring_eq (L : LuaState) (idx : Int) :
    lua_isstring L idx = ((index2adr L idx).bind luaV_tostring).isSome := by
  unfold lua_isstring
  cases h : index2adr L idx with
  | none => rfl
  | some v => cases v <;> rfl

theorem lua_tostring_fst (L : LuaState) (idx : Int) :
    (lua_tostring L idx).1 = (index2adr L idx).bind luaV_tostring := by
  unfold lua_tostring index2adr
  cases h : stackPos L idx with
  | none => rfl
  | some p =>
    simp only [Option.some_bind]
    cases h2 : L.stack.get? p with
    | none => rfl
    | some v => cases v <;> rfl

theorem lua_tostring_snd_registry (L : LuaState) (idx : Int) :
    (lua_tostring L idx).2.registry = L.registry ∧ (lua_tostring L idx).2.heap = L.heap := by
  unfold lua_tostring
  split
  · exact ⟨rfl, rfl⟩
  · split <;> exact ⟨rfl, rfl⟩

theorem cmpChars_eq_zero (a : List Char) : ∀ b : List Char, cmpChars a b = 0 ↔ a = b := by
  induction a with
  | nil =>
    intro b
    cases b <;> simp [cmpChars]
  | cons x a ih =>
    intro b
    cases b with
    | nil => simp [cmpChars]
    | cons y b =>
      by_cases h : x = y
      · simp [cmpChars, h, ih b]
      · simp only [cmpChars, h, if_false, List.cons.injEq, false_and, iff_false]
        split <;> decide

theorem strcmp_eq_zero (s b : String) : strcmp (some s) b = 0 ↔ s = b := by
  unfold strcmp
  rw [cmpChars_eq_zero]
  constructor
  · intro h
    exact String.ext h
  · intro h
    rw [h]

theorem toCInt_of_range (x : Int) (h1 : -2147483648 ≤ x) (h2 : x < 2147483648) :
    toCInt x = x := by
  unfold toCInt
  omega

/-! ## `bindKey` -/

/-- C1, as stated, fails: `bindKey(123, fn)` passes the `lua_isstring` test,
because a number counts as a string there. The function is registered under
reference 1 and the host is asked to bind the key text "123" to it, where the
claim has no registration and no host call. -/
theorem bindKey_number_key_is_bound :
    (termit_lua_bindKey (world [.number 123, .function 7] [])).toOption.map
        (fun r => (r.2.calls, r.2.L.registry))
      = some ([HostCall.termit_bind_key (some "123") 1], [LuaValue.function 7]) := by
  decide

/-- C1 (amended). `bindKey` leaves the interpreter and the host untouched
whenever argument 1 or argument 2 is nil, argument 1 is neither a string nor a
number, or argument 2 is not a function. Called with exactly a string or a
number `k` and a function, it stores the function under a new reference and
calls `termit_bind_key` exactly once, with that reference and the C string
that `lua_tostring` gives for `k`: a string up to its first NUL, a number as
`%.14g` prints it. -/
theorem bindKey_rejects_or_registers (w : Termit) :
    ((index2adr w.L 1 = some .nil ∨ index2adr w.L 2 = some .nil ∨
        (index2adr w.L 1).bind luaV_tostring = none ∨
        (∀ f, index2adr w.L 2 ≠ some (.function f))) →
      ∃ w', termit_lua_bindKey w = .ok (0, w') ∧ w'.L = w.L ∧ w'.calls = w.calls) ∧
    (∀ k f s, w.L.stack = [k, .function f] → luaV_tostring k = some s →
      ∃ w', termit_lua_bindKey w = .ok (0, w') ∧
        w'.calls = w.calls ++ [.termit_bind_key (some s) (w.L.registry.length + 1)] ∧
        w'.L.registry = w.L.registry ++ [.function f] ∧
        registryGet w'.L (w.L.registry.length + 1) = .function f) := by
  constructor
  · intro h
    have hrej : (lua_isnil w.L 1 || lua_isnil w.L 2) = true ∨
        (!lua_isstring w.L 1 || !lua_isfunction w.L 2) = true := by
      rcases h with h | h | h | h
      · left; simp [lua_isnil, h]
      · left; simp [lua_isnil, h]
      · right; simp [lua_isstring_eq, h]
      · right
        have : lua_isfunction w.L 2 = false := by
          unfold lua_isfunction
          split
          · next g hg => exact absurd hg (h g)
          · rfl
        simp [this]
    unfold termit_lua_bindKey
    by_cases hn : (lua_isnil w.L 1 || lua_isnil w.L 2) = true
    · exact ⟨TRACE_MSG "nil args: skipping" (TRACE_MSG "termit_lua_bindKey" w),
        by simp [TRACE_MSG, hn], rfl, rfl⟩
    · have hb : (!lua_isstring w.L 1 || !lua_isfunction w.L 2) = true := by
        rcases hrej with h | h
        · exact absurd h hn
        · exact h
      exact ⟨TRACE_MSG "bad args: skipping" (TRACE_MSG "termit_lua_bindKey" w),
        by simp [TRACE_MSG, hn, hb], rfl, rfl⟩
  · intro k f s hst hk
    cases k <;> simp [luaV_tostring] at hk <;> subst hk <;>
      simp [termit_lua_bindKey, TRACE_MSG, hostCall, setL, lua_isnil, lua_isstring,
        lua_isfunction, index2adr, stackPos, lua_tostring, luaL_ref, registryGet, hst]

theorem bindKey_rejects_or_registers_witness :
    (∃ w', termit_lua_bindKey (world [.boolean true, .function 7] []) = .ok (0, w') ∧
        w'.L = (world [.boolean true, .function 7] []).L ∧
        w'.calls = (world [.boolean true, .function 7] []).calls) ∧
    (∃ w', termit_lua_bindKey (world [.string "F5", .function 7] []) = .ok (0, w') ∧
        w'.calls = [] ++ [HostCall.termit_bind_key (some "F5") (0 + 1)] ∧
        w'.L.registry = [] ++ [LuaValue.function 7] ∧
        registryGet w'.L (0 + 1) = .function 7) :=
  ⟨(bindKey_rejects_or_registers (world [.boolean true, .function 7] [])).1
      (Or.inr (Or.inr (Or.inl (by decide)))),
   (bindKey_rejects_or_registers (world [.string "F5", .function 7] [])).2
      (.string "F5") 7 "F5" rfl rfl⟩

/-! ## `setKbPolicy` -/

/-- C7, as stated, fails: `setKbPolicy(5)` has a number, not a string, for
argument, yet one error is reported; a number passes `lua_isstring` and its
text "5" is no policy name. -/
theorem setKbPolicy_number_reports_error :
    (termit_lua_setKbPolicy (world [.number 5] [])).toOption.map (fun r => r.2.calls)
      = some [HostCall.report_error "unknown kbPolicy: 5"] := by
  decide

/-- C7 (amended). For an argument that is a string or a number, let `s` be
the C string that `lua_tostring` gives for it (a string up to its first NUL, a
number as `%.14g` prints it): one call of `termit_set_kb_policy` with
`TermitKbUseKeycode` when `s` is "keycode", one with `TermitKbUseKeysym` when
`s` is "keysym", and otherwise no call of the setter and one reported error.
For an argument that is nil, absent, a boolean, a function or a table: no host
call and no reported error. -/
theorem setKbPolicy_calls (w : Termit) :
    (∀ s, (index2adr w.L 1).bind luaV_tostring = some s →
      ∃ w', termit_lua_setKbPolicy w = .ok (0, w') ∧
        w'.calls = w.calls ++
          [if s = "keycode" then HostCall.termit_set_kb_policy .TermitKbUseKeycode
           else if s = "keysym" then HostCall.termit_set_kb_policy .TermitKbUseKeysym
           else HostCall.report_error ("unknown kbPolicy: " ++ s)]) ∧
    ((index2adr w.L 1).bind luaV_tostring = none →
      ∃ w', termit_lua_setKbPolicy w = .ok (0, w') ∧ w'.calls = w.calls) := by
  constructor
  · intro s hs
    have hnil : lua_isnil w.L 1 = false := by
      unfold lua_isnil
      split
      · next h => rw [h] at hs; simp [luaV_tostring] at hs
      · rfl
    have hstr : lua_isstring w.L 1 = true := by simp [lua_isstring_eq, hs]
    have hfst := lua_tostring_fst w.L 1
    rw [hs] at hfst
    rcases hts : lua_tostring w.L 1 with ⟨val, L1⟩
    rw [hts] at hfst
    simp only at hfst
    subst hfst
    unfold termit_lua_setKbPolicy
    by_cases h1 : s = "keycode"
    · exact ⟨_, by simp [hnil, hstr, hts, h1, strcmp_eq_zero]; rfl,
        by simp [hostCall, TRACE_MSG, setL, h1]⟩
    · by_cases h2 : s = "keysym"
      · exact ⟨_, by simp [hnil, hstr, hts, h2, strcmp_eq_zero]; rfl,
          by simp [hostCall, TRACE_MSG, setL, h2]⟩
      · exact ⟨_, by simp [hnil, hstr, hts, h1, h2, strcmp_eq_zero]; rfl,
          by simp [ERROR, hostCall, TRACE_MSG, setL, h1, h2, fmt_s]⟩
  · intro hs
    have hstr : lua_isstring w.L 1 = false := by simp [lua_isstring_eq, hs]
    unfold termit_lua_setKbPolicy
    by_cases hn : lua_isnil w.L 1 = true
    · exact ⟨TRACE_MSG "no kbPolicy defined: skipping" w, by simp [hn], rfl⟩
    · exact ⟨TRACE_MSG "kbPolicy is not string: skipping" w, by simp [hn, hstr], rfl⟩

theorem setKbPolicy_calls_witness :
    (∃ w', termit_lua_setKbPolicy (world [.string "keysym"] []) = .ok (0, w') ∧
        w'.calls = [] ++
          [if "keysym" = "keycode" then HostCall.termit_set_kb_policy .TermitKbUseKeycode
           else if "keysym" = "keysym" then HostCall.termit_set_kb_policy .TermitKbUseKeysym
           else HostCall.report_error ("unknown kbPolicy: " ++ "keysym")]) ∧
    (∃ w', termit_lua_setKbPolicy (world [.boolean false] []) = .ok (0, w') ∧
        w'.calls = []) :=
  ⟨(setKbPolicy_calls (world [.string "keysym"] [])).1 "keysym" (by decide),
   (setKbPolicy_calls (world [.boolean false] [])).2 (by decide)⟩

/-! ## `activateTab` -/

/-- C8, as stated, fails twice. `activateTab("3")` has a string, not a number,
for argument, yet the host is called (with 2): `lua_isnumber` accepts a string
that converts to a number. And `activateTab(4294967297)` calls the host with
0, not 4294967296: the number goes through the C `int` `tab_index`. -/
theorem activateTab_string_and_wide_number :
    (termit_lua_activateTab (world [.string "3"] [])).toOption.map (fun r => r.2.calls)
      = some [HostCall.termit_activate_tab 2] ∧
    (termit_lua_activateTab (world [.number 4294967297] [])).toOption.map (fun r => r.2.calls)
      = some [HostCall.termit_activate_tab 0] := by
  decide

/-- C8 (amended). For an argument that is a number, or a string that converts
to a number, `activateTab` calls `termit_activate_tab` exactly once, with
`v - 1`, where `v` is the number cut to an integer by `lua_tointeger` (the
number itself when it is an integer), provided `v` lies within the range of
the C `int` (`-2^31 < v < 2^31`); it does nothing else. So `activateTab(1)`
activates 0 and `activateTab(0)` activates -1. For an argument that is nil,
absent, or does not convert to a number it makes no host call. -/
theorem activateTab_index (w : Termit) :
    (∀ x, tonumber (index2adr w.L 1) = some x →
      -2147483648 < lua_number2integer x → lua_number2integer x < 2147483648 →
      termit_lua_activateTab w =
        .ok (0, hostCall (.termit_activate_tab (lua_number2integer x - 1)) w)) ∧
    (tonumber (index2adr w.L 1) = none →
      ∃ w', termit_lua_activateTab w = .ok (0, w') ∧ w'.calls = w.calls ∧ w'.L = w.L) := by
  constructor
  · intro x hx h1 h2
    have hnil : lua_isnil w.L 1 = false := by
      unfold lua_isnil
      split
      · next h => rw [h] at hx; simp [tonumber] at hx
      · rfl
    have hnum : lua_isnumber w.L 1 = true := by simp [lua_isnumber, hx]
    have hint : lua_tointeger w.L 1 = lua_number2integer x := by simp [lua_tointeger, hx]
    unfold termit_lua_activateTab
    simp only [hnil, hnum, hint]
    rw [toCInt_of_range _ (by omega) h2, toCInt_of_range _ (by omega) (by omega)]
    simp
  · intro hx
    have hnum : lua_isnumber w.L 1 = false := by simp [lua_isnumber, hx]
    unfold termit_lua_activateTab
    by_cases hn : lua_isnil w.L 1 = true
    · exact ⟨TRACE_MSG "no tabNum defined: skipping" w, by simp [hn], rfl, rfl⟩
    · exact ⟨TRACE_MSG "tabNum is not number: skipping" w, by simp [hn, hnum], rfl, rfl⟩

theorem activateTab_index_witness :
    termit_lua_activateTab (world [.number 0] []) =
        .ok (0, hostCall (.termit_activate_tab (lua_number2integer 0 - 1))
          (world [.number 0] [])) ∧
    (∃ w', termit_lua_activateTab (world [.string "next"] []) = .ok (0, w') ∧
        w'.calls = [] ∧ w'.L = (world [.string "next"] []).L) :=
  ⟨(activateTab_index (world [.number 0] [])).1 0 (by decide) (by decide) (by decide),
   (activateTab_index (world [.string "next"] [])).2 (by decide)⟩

/-! ## `termit_lua_dofunction` -/

/-- C5. `termit_lua_dofunction` always returns, with 0 or 1. It returns 1
exactly when the handle is not `LUA_REFNIL`, the value registered under it is
a function, and the call of that function ends without an error. On
`LUA_REFNIL` it returns 0 and the whole process, the stack included, is as it
was, whatever the script. -/
theorem dofunction_true_iff (script : Script) (f : Int) (w : Termit) :
    (∃ n w', termit_lua_dofunction script f w = .ok (n, w') ∧ (n = 0 ∨ n = 1) ∧
      (n = 1 ↔ (f ≠ LUA_REFNIL ∧
        ∃ g, registryGet w.L f = .function g ∧ (script g (calleeFrame w)).1 = none))) ∧
    termit_lua_dofunction script LUA_REFNIL w = .ok (0, w) := by
  constructor
  · by_cases hf : f = LUA_REFNIL
    · exact ⟨0, w, by simp [termit_lua_dofunction, hf], Or.inl rfl, by simp [hf]⟩
    · cases hv : registryGet w.L f with
      | function g =>
        cases hs : script g (calleeFrame w) with
        | mk err w1 =>
          have hs2 : script g (setL (setL w (lua_rawgeti_registry w.L f))
              { (setL w (lua_rawgeti_registry w.L f)).L with stack := [] }) = (err, w1) := by
            rw [← hs]; rfl
          cases err with
          | none =>
            refine ⟨1, setL w1 { w1.L with stack := w.L.stack }, ?_, Or.inr rfl,
              by simp [hf, hs]⟩
            simp [termit_lua_dofunction, hf, lua_pcall, lua_rawgeti_registry, lua_pushvalue,
              setL, hv]
            simp [setL, lua_rawgeti_registry, lua_pushvalue, hv] at hs2
            rw [hs2]
            simp
          | some msg =>
            refine ⟨0, TRACE_MSG ("error running function: " ++ fmt_s (luaV_tostring msg))
                (setL w1 { w1.L with stack := w.L.stack }), ?_, Or.inl rfl, by simp [hf, hs]⟩
            simp [termit_lua_dofunction, hf, lua_pcall, lua_rawgeti_registry, lua_pushvalue,
              setL, hv]
            simp [setL, lua_rawgeti_registry, lua_pushvalue, hv] at hs2
            rw [hs2]
            cases msg <;>
              simp [LUA_ERRRUN, lua_tostring, stackPos, lua_pop, TRACE_MSG, luaV_tostring]
      | nil | boolean _ | number _ | string _ | table _ =>
        refine ⟨0, TRACE_MSG ("error running function: " ++ fmt_s (luaV_tostring
            (.string ("attempt to call a " ++ typeName (registryGet w.L f) ++ " value")))) w,
          ?_, Or.inl rfl, by simp [hf, hv]⟩
        simp [termit_lua_dofunction, hf, lua_pcall, lua_rawgeti_registry, lua_pushvalue,
          setL, hv, LUA_ERRRUN, lua_tostring, stackPos, lua_pop, TRACE_MSG, typeName, fmt_s,
          luaV_tostring]
  · simp [termit_lua_dofunction]

/-- C4: the code at a callback that raises "boom" (reference 1 of
`callbackWorld`). It returns 0 and the frame is as before, but the error text
goes to the trace channel only: no line is put on the error channel, where the
claim has exactly one. The sibling `termit_report_lua_error`, which
`termit_lua_execute` uses, does report the text of the same failed call. A
later call of reference 2 returns 1. -/
theorem dofunction_error_is_traced_not_reported :
    termit_lua_dofunction boomScript 1 callbackWorld
      = .ok (0, TRACE_MSG "error running function: boom" callbackWorld) ∧
    (TRACE_MSG "error running function: boom" callbackWorld).calls = [] ∧
    termit_report_lua_error LUA_ERRRUN
        (setL callbackWorld (lua_pushvalue callbackWorld.L (.string "boom")))
      = .ok (hostCall (.report_error "boom\n") (TRACE_MSG "lua error:" callbackWorld)) ∧
    termit_lua_dofunction boomScript 2 (TRACE_MSG "error running function: boom" callbackWorld)
      = .ok (1, TRACE_MSG "error running function: boom" callbackWorld) := by
  refine ⟨?_, ?_, ?_, ?_⟩ <;> decide

/-! ## Stack shapes met while a table is walked -/

theorem index2adr_one (L : LuaState) (v : LuaValue) (rest : List LuaValue)
    (h : L.stack = v :: rest) : index2adr L 1 = some v := by
  simp [index2adr, stackPos, h]

theorem stackPos_top (L : LuaState) (base : List LuaValue) (v : LuaValue)
    (h : L.stack = base ++ [v]) : stackPos L (-1) = some base.length := by
  simp [stackPos, h]

theorem stackPos_below_top (L : LuaState) (base : List LuaValue) (k v : LuaValue)
    (h : L.stack = base ++ [k, v]) : stackPos L (-2) = some base.length := by
  simp [stackPos, h]

theorem index2adr_top (L : LuaState) (base : List LuaValue) (v : LuaValue)
    (h : L.stack = base ++ [v]) : index2adr L (-1) = some v := by
  simp [index2adr, stackPos_top L base v h, h]

theorem index2adr_below_top (L : LuaState) (base : List LuaValue) (k v : LuaValue)
    (h : L.stack = base ++ [k, v]) : index2adr L (-2) = some k := by
  have hget : (base ++ [k, v])[base.length]? = some k := by
    rw [List.getElem?_append_right (le_refl _)]
    simp
  simp [index2adr, stackPos_below_top L base k v h, h, hget]

theorem lua_pop_one (L : LuaState) (base : List LuaValue) (v : LuaValue)
    (h : L.stack = base ++ [v]) : lua_pop L 1 = .ok { L with stack := base } := by
  simp [lua_pop, h]

theorem rawequal_of_not_number (x k : LuaValue) (hk : isNumber k = false) :
    luaO_rawequalObj x k = decide (x = k) := by
  cases k <;> cases x <;> simp_all [luaO_rawequalObj, isNumber]

theorem luaH_next_mid (pre post : LuaTable) (k v : LuaValue) (hk : k ≠ .nil)
    (hkk : luaO_rawequalObj k k = true)
    (hpre : ∀ e ∈ pre, luaO_rawequalObj e.1 k = false) :
    luaH_next (pre ++ (k, v) :: post) k = .ok post.head? := by
  have hdrop : (pre ++ (k, v) :: post).dropWhile (fun e => !luaO_rawequalObj e.1 k)
      = (k, v) :: post := by
    induction pre with
    | nil => simp [List.dropWhile, hkk]
    | cons e pre ih =>
      have he : luaO_rawequalObj e.1 k = false := hpre e (List.mem_cons_self _ _)
      have := ih (fun e1 h1 => hpre e1 (List.mem_cons_of_mem _ h1))
      simp [List.dropWhile, he, this]
  cases k <;> simp_all [luaH_next]

theorem luaH_next_mid_plain (pre post : LuaTable) (k v : LuaValue) (hk : k ≠ .nil)
    (hnum : isNumber k = false) (hpre : ∀ e ∈ pre, e.1 ≠ k) :
    luaH_next (pre ++ (k, v) :: post) k = .ok post.head? := by
  apply luaH_next_mid pre post k v hk
  · rw [rawequal_of_not_number k k hnum]
    simp
  · intro e he
    rw [rawequal_of_not_number e.1 k hnum]
    simpa using hpre e he

theorem lua_next_more (L : LuaState) (idx : Int) (r : Nat) (base : List LuaValue)
    (key k v : LuaValue)
    (hi : index2adr L idx = some (.table r)) (hs : L.stack = base ++ [key])
    (hn : luaH_next (tableAt L r) key = .ok (some (k, v))) :
    lua_next L idx = .ok (1, { L with stack := base ++ [k, v] }) := by
  unfold lua_next
  simp [hi, hs, hn]

theorem lua_next_done (L : LuaState) (idx : Int) (r : Nat) (base : List LuaValue)
    (key : LuaValue)
    (hi : index2adr L idx = some (.table r)) (hs : L.stack = base ++ [key])
    (hn : luaH_next (tableAt L r) key = .ok none) :
    lua_next L idx = .ok (0, { L with stack := base }) := by
  unfold lua_next
  simp [hi, hs, hn]

theorem tableAt_congr (L1 L2 : LuaState) (r : Nat) (h : L1.heap = L2.heap) :
    tableAt L1 r = tableAt L2 r := by
  simp [tableAt, h]

theorem lua_isstring_below_top (L : LuaState) (base : List LuaValue) (k v : LuaValue)
    (h : L.stack = base ++ [k, v]) :
    lua_isstring L (-2) = (luaV_tostring k).isSome := by
  rw [lua_isstring_eq, index2adr_below_top L base k v h]
  rfl

theorem lua_tostring_string_below_top (L : LuaState) (base : List LuaValue) (s : String)
    (v : LuaValue) (h : L.stack = base ++ [.string s, v]) :
    lua_tostring L (-2) = (some (cstr s), L) := by
  have hget : (base ++ [LuaValue.string s, v])[base.length]? = some (.string s) := by
    rw [List.getElem?_append_right (le_refl _)]
    simp
  simp [lua_tostring, stackPos_below_top L base _ v h, h, hget]

/-- Facts about a well-formed table split at an entry. -/
theorem tableWF_split (pre post : LuaTable) (k v : LuaValue)
    (hwf : TableWF (pre ++ (k, v) :: post)) :
    k ≠ .nil ∧ (∀ e ∈ pre, e.1 ≠ k) := by
  obtain ⟨hnd, hnil⟩ := hwf
  constructor
  · intro hk
    apply hnil
    simp [hk]
  · intro e he hek
    rw [List.map_append, List.nodup_append] at hnd
    obtain ⟨_, _, hdis⟩ := hnd
    exact hdis (List.mem_map_of_mem Prod.fst he) (by simp [hek])

/-! ## The walker on a table without number keys -/

theorem load_lua_table_loop_done {δ : Type} (func : LoaderFunc δ) (n : Nat) (w : Termit)
    (d : δ) (L1 : LuaState) (hnext : lua_next w.L 1 = .ok (0, L1)) :
    load_lua_table_loop func (n + 1) w d = .ok (setL w L1, d) := by
  simp [load_lua_table_loop, hnext]

theorem load_lua_table_loop_visit {δ : Type} (func : LoaderFunc δ) (n : Nat) (w : Termit)
    (d : δ) (L1 L3 : LuaState) (base : List LuaValue) (s : String) (v : LuaValue)
    (hnext : lua_next w.L 1 = .ok (1, L1)) (hL1 : L1.stack = base ++ [.string s, v])
    (hpop : lua_pop (func (some (cstr s)) (setL w L1) (-1) d).1.L 1 = .ok L3) :
    load_lua_table_loop func (n + 1) w d =
      load_lua_table_loop func n (setL (func (some (cstr s)) (setL w L1) (-1) d).1 L3)
        (func (some (cstr s)) (setL w L1) (-1) d).2 := by
  have hisstr : lua_isstring (setL w L1).L (-2) = true := by
    rw [show (setL w L1).L = L1 from rfl, lua_isstring_below_top L1 base _ v hL1]
    rfl
  have hts : lua_tostring (setL w L1).L (-2) = (some (cstr s), L1) :=
    lua_tostring_string_below_top L1 base s v hL1
  have hset : setL (setL w L1) L1 = setL w L1 := rfl
  simp only [load_lua_table_loop, hnext, hisstr, hts, hset]
  simp [hpop]

theorem load_lua_table_loop_skip {δ : Type} (func : LoaderFunc δ) (n : Nat) (w : Termit)
    (d : δ) (L1 L3 : LuaState) (base : List LuaValue) (k v : LuaValue)
    (hnext : lua_next w.L 1 = .ok (1, L1)) (hL1 : L1.stack = base ++ [k, v])
    (hk : luaV_tostring k = none) (hpop : lua_pop L1 1 = .ok L3) :
    load_lua_table_loop func (n + 1) w d = load_lua_table_loop func n (setL w L3) d := by
  have hisstr : lua_isstring (setL w L1).L (-2) = false := by
    rw [show (setL w L1).L = L1 from rfl, lua_isstring_below_top L1 base _ v hL1, hk]
    rfl
  have hpop1 : lua_pop (setL w L1).L 1 = .ok L3 := hpop
  simp only [load_lua_table_loop, hnext, hisstr]
  simp [hpop1]
  rfl

theorem load_lua_table_loop_spec {δ : Type} (func : LoaderFunc δ)
    (R : String → LuaValue → δ → δ → Prop) (hv : VisitorSpec func R)
    (r : Nat) (args : List LuaValue) :
    ∀ (post pre : LuaTable) (w : Termit) (d : δ) (key : LuaValue) (fuel : Nat),
      tableAt w.L r = pre ++ post →
      TableWF (pre ++ post) →
      NoNumberKey post →
      w.L.stack = (.table r :: args) ++ [key] →
      luaH_next (pre ++ post) key = .ok post.head? →
      post.length < fuel →
      ∃ w1 d1, load_lua_table_loop func fuel w d = .ok (w1, d1) ∧
        w1.L.stack = .table r :: args ∧ w1.L.heap = w.L.heap ∧ visitRel R post d d1 := by
  intro post
  induction post with
  | nil =>
    intro pre w d key fuel ht hwf hnn hst hkey hfuel
    obtain ⟨n, rfl⟩ : ∃ n, fuel = n + 1 := ⟨fuel - 1, by omega⟩
    have hi := index2adr_one w.L (.table r) (args ++ [key]) (by simpa using hst)
    have hnext := lua_next_done w.L 1 r (.table r :: args) key hi hst
      (by rw [ht]; simpa using hkey)
    exact ⟨_, d, load_lua_table_loop_done func n w d _ hnext, rfl, rfl, rfl⟩
  | cons e post ih =>
    intro pre w d key fuel ht hwf hnn hst hkey hfuel
    obtain ⟨k, v⟩ := e
    obtain ⟨n, rfl⟩ : ∃ n, fuel = n + 1 := ⟨fuel - 1, by omega⟩
    have hfuel1 : post.length < n := by simp at hfuel; omega
    have hi := index2adr_one w.L (.table r) (args ++ [key]) (by simpa using hst)
    have hnext := lua_next_more w.L 1 r (.table r :: args) key k v hi hst
      (by rw [ht]; simpa using hkey)
    obtain ⟨hk_nil, hpre⟩ := tableWF_split pre post k v hwf
    have hsplit : pre ++ (k, v) :: post = (pre ++ [(k, v)]) ++ post := by simp
    have hnn1 : NoNumberKey post := fun e he => hnn e (List.mem_cons_of_mem _ he)
    have hknum : isNumber k = false := hnn (k, v) (List.mem_cons_self _ _)
    have hkey1 : luaH_next ((pre ++ [(k, v)]) ++ post) k = .ok post.head? := by
      rw [← hsplit]; exact luaH_next_mid_plain pre post k v hk_nil hknum hpre
    have hwf1 : TableWF ((pre ++ [(k, v)]) ++ post) := by rw [← hsplit]; exact hwf
    have hbase : ∀ x y : LuaValue, (LuaValue.table r :: args) ++ [x, y]
        = ((LuaValue.table r :: args) ++ [x]) ++ [y] := by intro x y; simp
    by_cases hks : ∃ s, k = .string s
    · obtain ⟨s, rfl⟩ := hks
      have hfr : ∃ fr, fr = func (some (cstr s))
          (setL w { w.L with stack := (LuaValue.table r :: args) ++ [LuaValue.string s, v] })
          (-1) d := ⟨_, rfl⟩
      obtain ⟨fr, hfr⟩ := hfr
      obtain ⟨hR, ⟨v1, hst2⟩, hheap2⟩ := hv (cstr s)
        (setL w { w.L with stack := (LuaValue.table r :: args) ++ [LuaValue.string s, v] }) d
        ((LuaValue.table r :: args) ++ [LuaValue.string s]) v (hbase _ _)
      rw [← hfr] at hR hst2 hheap2
      have hpop := lua_pop_one fr.1.L _ v1 hst2
      obtain ⟨w1, d1, hloop, hs1, hh1, hrel⟩ := ih (pre ++ [(LuaValue.string s, v)])
        (setL fr.1 { fr.1.L with stack := (LuaValue.table r :: args) ++ [LuaValue.string s] })
        fr.2 (LuaValue.string s) n
        (by rw [← hsplit, ← ht]; apply tableAt_congr; exact hheap2)
        hwf1 hnn1 rfl hkey1 hfuel1
      refine ⟨w1, d1, ?_, hs1, ?_, ⟨_, hR, hrel⟩⟩
      · rw [load_lua_table_loop_visit func n w d _ _ _ s v hnext rfl (by rw [← hfr]; exact hpop),
          ← hfr]
        exact hloop
      · rw [hh1]; exact hheap2
    · have hk : luaV_tostring k = none := by
        cases k with
        | string s => exact absurd ⟨s, rfl⟩ hks
        | number m => simp [isNumber] at hknum
        | _ => rfl
      have hpop := lua_pop_one { w.L with stack := (LuaValue.table r :: args) ++ [k, v] }
        ((LuaValue.table r :: args) ++ [k]) v (hbase _ _)
      obtain ⟨w1, d1, hloop, hs1, hh1, hrel⟩ := ih (pre ++ [(k, v)])
        (setL w { w.L with stack := (LuaValue.table r :: args) ++ [k] }) d k n
        (by rw [← hsplit, ← ht]; rfl) hwf1 hnn1 rfl hkey1 hfuel1
      refine ⟨w1, d1, ?_, hs1, hh1, ?_⟩
      · rw [load_lua_table_loop_skip func n w d _ _ _ k v hnext rfl hk hpop]
        exact hloop
      · cases k with
        | string s => exact absurd ⟨s, rfl⟩ hks
        | number m => simp [isNumber] at hknum
        | nil => exact hrel
        | boolean b => exact hrel
        | function g => exact hrel
        | table q => exact hrel

theorem index2adr_one_inv (L : LuaState) (v : LuaValue) (h : index2adr L 1 = some v) :
    ∃ rest, L.stack = v :: rest := by
  cases hs : L.stack with
  | nil => simp [index2adr, stackPos, hs] at h
  | cons x rest =>
    simp [index2adr, stackPos, hs] at h
    exact ⟨rest, by rw [h]⟩

theorem lua_pop_one_dropLast (L : LuaState) (h : L.stack ≠ []) :
    lua_pop L 1 = .ok { L with stack := L.stack.dropLast } := by
  have hlen : 1 ≤ L.stack.length := List.length_pos.mpr h
  simp [lua_pop, hlen, List.dropLast_eq_take]

/-- The walker on a well-formed table without number keys, with a visitor
that keeps to its frame: it returns `LOADER_OK`, the visitor has been called
once for each string-keyed entry, in order, and for no other entry; the top
value of the frame is gone and nothing else has moved. -/
theorem load_lua_table_ok {δ : Type} (func : LoaderFunc δ)
    (R : String → LuaValue → δ → δ → Prop) (hv : VisitorSpec func R)
    (w : Termit) (d : δ) (r : Nat) (fuel : Nat)
    (h1 : index2adr w.L 1 = some (.table r))
    (hwf : TableWF (tableAt w.L r)) (hnn : NoNumberKey (tableAt w.L r))
    (hfuel : (tableAt w.L r).length < fuel) :
    ∃ w1 d1, load_lua_table fuel w func (some d) = .ok (.LOADER_OK, w1, some d1) ∧
      w1.L.stack = w.L.stack.dropLast ∧ w1.L.heap = w.L.heap ∧
      visitRel R (tableAt w.L r) d d1 := by
  obtain ⟨args, hst⟩ := index2adr_one_inv w.L _ h1
  obtain ⟨w1, d1, hloop, hs1, hh1, hrel⟩ := load_lua_table_loop_spec func R hv r args
    (tableAt w.L r) [] (setL w (lua_pushnil w.L)) d .nil fuel
    (by simp [setL, lua_pushnil, tableAt]) (by simpa using hwf) hnn
    (by simp [setL, lua_pushnil, hst]) (by simp [luaH_next]) hfuel
  have hpop := lua_pop_one_dropLast w1.L (by rw [hs1]; simp)
  refine ⟨setL w1 { w1.L with stack := w1.L.stack.dropLast }, d1, ?_, ?_, ?_, hrel⟩
  · have hnil : lua_isnil w.L 1 = false := by simp [lua_isnil, h1]
    have htab : lua_istable w.L 1 = true := by simp [lua_istable, h1]
    simp only [load_lua_table, hnil, htab, hloop, hpop]
    simp
  · simp [setL, hs1, hst]
  · simpa [setL, lua_pushnil] using hh1

/-! ## `load_lua_table`: result and stack -/

/-- C2, as stated, fails at a table with the number key 1, `recordVisit`
being the visitor. On `{[1]="a", ["1"]="b"}` the walker returns `LOADER_OK`
after exactly one visit, made for the number key (under the name "1"), and
none for the string key "1": a number key passes the `lua_isstring` test. On
`{[1]="a"}` the key is visited as well and the walk then ends in the Lua error
"invalid key to 'next'" instead of `LOADER_OK`. -/
theorem load_lua_table_number_key_visited :
    (load_lua_table 3
        (world [.table 0] [[(.number 1, .string "a"), (.string "1", .string "b")]])
        recordVisit (some [])).toOption.map (fun r => (r.1, r.2.2))
      = some (LoaderResult.LOADER_OK, some [(some "1", some (LuaValue.string "a"))]) ∧
    load_lua_table 3 (world [.table 0] [[(.number 1, .string "a")]]) recordVisit (some [])
      = .error .invalidKeyToNext := by
  constructor
  · decide
  · rfl

/-- C9: the code at `openTab({"bash"})`, a table whose one key is the number
1. The context is not NULL and argument 1 is a table, so the claim has
`LOADER_OK`; the walk converts the key on the stack to the string "1" and the
next `lua_next` raises "invalid key to 'next'", so neither `load_lua_table`
nor `openTab` returns and no tab is opened. -/
theorem openTab_array_table_raises (fuel : Nat) :
    load_lua_table (fuel + 2) (world [.table 0] [[(.number 1, .string "bash")]])
        tabLoader (some TabInfo.zero) = .error .invalidKeyToNext ∧
    termit_lua_openTab (fuel + 2) (world [.table 0] [[(.number 1, .string "bash")]])
      = .error .invalidKeyToNext := by
  have h1 : lua_Number2str 1 = "1" := by decide
  constructor <;>
  simp [termit_lua_openTab, load_lua_table, load_lua_table_loop, world, lua_isnil,
    lua_istable, index2adr, stackPos, lua_pushnil, setL, lua_next, luaH_next, tableAt,
    lua_isstring, lua_tostring, tabLoader, lua_pop, h1, TRACE_MSG, strcmp_eq_zero,
    luaO_rawequalObj]

/-! ## `tabLoader` -/

theorem lua_isstring_top (L : LuaState) (base : List LuaValue) (v : LuaValue)
    (h : L.stack = base ++ [v]) : lua_isstring L (-1) = (luaV_tostring v).isSome := by
  rw [lua_isstring_eq, index2adr_top L base v h]
  rfl

theorem lua_tostring_top (L : LuaState) (base : List LuaValue) (v : LuaValue)
    (h : L.stack = base ++ [v]) :
    (lua_tostring L (-1)).1 = luaV_tostring v ∧
    (∃ v1, (lua_tostring L (-1)).2.stack = base ++ [v1]) ∧
    (lua_tostring L (-1)).2.heap = L.heap := by
  refine ⟨?_, ?_, (lua_tostring_snd_registry L (-1)).2⟩
  · rw [lua_tostring_fst, index2adr_top L base v h]
    rfl
  · have hget : (base ++ [v])[base.length]? = some v := by
      rw [List.getElem?_append_right (le_refl _)]
      simp
    cases v with
    | number n =>
      exact ⟨.string (lua_Number2str n), by
        simp [lua_tostring, stackPos_top L base _ h, h, hget]⟩
    | string s0 => exact ⟨.string s0, by simp [lua_tostring, stackPos_top L base _ h, h, hget]⟩
    | nil => exact ⟨.nil, by simp [lua_tostring, stackPos_top L base _ h, h, hget]⟩
    | boolean b => exact ⟨.boolean b, by simp [lua_tostring, stackPos_top L base _ h, h, hget]⟩
    | function g => exact ⟨.function g, by simp [lua_tostring, stackPos_top L base _ h, h, hget]⟩
    | table q => exact ⟨.table q, by simp [lua_tostring, stackPos_top L base _ h, h, hget]⟩

theorem tabLoader_spec : VisitorSpec tabLoader (fun s v d d1 => d1 = tabStep s v d) := by
  intro name w d base v hst
  have his := lua_isstring_top w.L base v hst
  obtain ⟨hfst, ⟨v1, hstk⟩, hheap⟩ := lua_tostring_top w.L base v hst
  rcases hts : lua_tostring w.L (-1) with ⟨value, L1⟩
  rw [hts] at hfst hstk hheap
  simp only at hfst hstk hheap
  cases hv : luaV_tostring v with
  | none =>
    have his0 : lua_isstring w.L (-1) = false := by rw [his, hv]; rfl
    simp [tabLoader, his0, tabStep, hv, hst]
  | some s =>
    have his1 : lua_isstring w.L (-1) = true := by rw [his, hv]; rfl
    rw [hv] at hfst
    subst hfst
    by_cases h1 : name = "name"
    · subst h1
      simp [tabLoader, his1, hts, tabStep, hv, TRACE_MSG, setL, hstk, hheap, strcmp_eq_zero,
          g_strdup]
    · by_cases h2 : name = "command"
      · subst h2
        simp [tabLoader, his1, hts, tabStep, hv, TRACE_MSG, setL, hstk, hheap, strcmp_eq_zero,
          g_strdup]
      · by_cases h3 : name = "encoding"
        · subst h3
          simp [tabLoader, his1, hts, tabStep, hv, TRACE_MSG, setL, hstk, hheap, strcmp_eq_zero,
          g_strdup]
        · by_cases h4 : name = "working_dir"
          · subst h4
            simp [tabLoader, his1, hts, tabStep, hv, TRACE_MSG, setL, hstk, hheap, strcmp_eq_zero,
          g_strdup]
          · simp [tabLoader, tabStep, hv, h1, h2, h3, h4, hst, strcmp_eq_zero]

theorem lastText_cons (p : LuaValue × LuaValue → Bool) (e : LuaValue × LuaValue)
    (t : LuaTable) (dflt : Option String) :
    lastText p (e :: t) dflt = lastText p t (if p e then luaV_tostring e.2 else dflt) := by
  unfold lastText
  by_cases h : p e = true
  · simp only [List.filter_cons, h, if_true, List.getLast?_cons]
    cases (List.filter p t).getLast? <;> rfl
  · simp only [List.filter_cons, h, if_false]
    rfl

theorem lastText_of_none (p : LuaValue × LuaValue → Bool) (t : LuaTable)
    (dflt : Option String) (h : ∀ e ∈ t, p e = false) : lastText p t dflt = dflt := by
  induction t generalizing dflt with
  | nil => rfl
  | cons e t ih =>
    rw [lastText_cons, ih _ (fun e1 h1 => h e1 (List.mem_cons_of_mem _ h1)),
      h e (List.mem_cons_self _ _)]
    rfl

theorem tab_visits (post : LuaTable) :
    ∀ ti d1 : TabInfo,
      visitRel (fun s v d d2 => d2 = tabStep s v d) post ti d1 →
      d1 = { name := lastText (tabEntry "name") post ti.name,
             command := lastText (tabEntry "command") post ti.command,
             encoding := lastText (tabEntry "encoding") post ti.encoding,
             working_dir := lastText (tabEntry "working_dir") post ti.working_dir } := by
  induction post with
  | nil =>
    intro ti d1 h
    simp [visitRel] at h
    subst h
    simp [lastText]
  | cons e post ih =>
    intro ti d1 h
    obtain ⟨k, v⟩ := e
    simp only [lastText_cons]
    by_cases hks : ∃ s, k = .string s
    · obtain ⟨s, rfl⟩ := hks
      simp only [visitRel] at h
      obtain ⟨d2, hd2, hrel⟩ := h
      have hih := ih d2 d1 hrel
      subst hd2
      rw [hih]
      by_cases h1 : cstr s = "name"
      · cases hv : luaV_tostring v <;> simp [tabEntry, keyReads, tabStep, hv, h1]
      · by_cases h2 : cstr s = "command"
        · cases hv : luaV_tostring v <;> simp [tabEntry, keyReads, tabStep, hv, h2]
        · by_cases h3 : cstr s = "encoding"
          · cases hv : luaV_tostring v <;> simp [tabEntry, keyReads, tabStep, hv, h3]
          · by_cases h4 : cstr s = "working_dir"
            · cases hv : luaV_tostring v <;> simp [tabEntry, keyReads, tabStep, hv, h4]
            · cases hv : luaV_tostring v <;>
                simp [tabEntry, keyReads, tabStep, hv, h1, h2, h3, h4]
    · have hrel : visitRel (fun s v d d2 => d2 = tabStep s v d) post ti d1 := by
        cases k with
        | string s => exact absurd ⟨s, rfl⟩ hks
        | _ => simpa [visitRel] using h
      have hne : ∀ key : String, tabEntry key (k, v) = false := by
        intro key
        cases k with
        | string s => exact absurd ⟨s, rfl⟩ hks
        | _ => rfl
      rw [ih ti d1 hrel]
      simp [hne]

theorem luaH_get_of_not_mem (t : LuaTable) (k : LuaValue) (h : k ∉ t.map Prod.fst) :
    luaH_get t k = none := by
  induction t with
  | nil => rfl
  | cons e t ih =>
    obtain ⟨k1, v1⟩ := e
    simp at h
    have hne : ¬ k1 = k := fun hk => h.1 hk.symm
    simp [luaH_get, hne]
    exact ih (by simpa using h.2)

theorem keyReads_of_nulFree (key : String) (k : LuaValue) (hk : nulFreeKey k = true) :
    keyReads key k = decide (k = .string key) := by
  cases k with
  | string s =>
    simp only [nulFreeKey, decide_eq_true_eq] at hk
    simp [keyReads, hk]
  | _ => simp [keyReads]

/-- On a table whose string keys hold no NUL, the last entry that reads as a
key is the entry under that key. -/
theorem lastText_get (key : String) (q : LuaValue → Bool) (t : LuaTable) :
    ∀ dflt : Option String, (t.map Prod.fst).Nodup →
      (∀ e ∈ t, nulFreeKey e.1 = true) →
      lastText (fun e => keyReads key e.1 && q e.2) t dflt =
        (match luaH_get t (.string key) with
         | some v => if q v then luaV_tostring v else dflt
         | none => dflt) := by
  induction t with
  | nil => intro dflt _ _; rfl
  | cons e t ih =>
    intro dflt hnd hnul
    obtain ⟨k, v⟩ := e
    simp only [List.map_cons, List.nodup_cons] at hnd
    obtain ⟨hk, hnd1⟩ := hnd
    have hnul1 : ∀ e ∈ t, nulFreeKey e.1 = true := fun e he => hnul e (List.mem_cons_of_mem _ he)
    have hkr := keyReads_of_nulFree key k (hnul (k, v) (List.mem_cons_self _ _))
    rw [lastText_cons]
    by_cases hkk : k = .string key
    · subst hkk
      have hnone : ∀ e ∈ t, (fun e : LuaValue × LuaValue => keyReads key e.1 && q e.2) e
          = false := by
        intro e he
        have hne : e.1 ≠ .string key := fun h => hk (h ▸ List.mem_map_of_mem Prod.fst he)
        simp [keyReads_of_nulFree key e.1 (hnul1 e he), hne]
      rw [lastText_of_none _ _ _ hnone]
      cases hq : q v <;> simp [hkr, luaH_get, hq]
    · rw [ih _ hnd1 hnul1]
      simp [hkr, hkk, luaH_get]

theorem lastText_tabEntry_get (key : String) (t : LuaTable) (hnd : (t.map Prod.fst).Nodup)
    (hnul : ∀ e ∈ t, nulFreeKey e.1 = true) :
    lastText (tabEntry key) t none = (luaH_get t (.string key)).bind luaV_tostring := by
  have h := lastText_get key (fun v => (luaV_tostring v).isSome) t none hnd hnul
  have hp : tabEntry key = fun e => keyReads key e.1 && (luaV_tostring e.2).isSome := rfl
  rw [hp, h]
  cases luaH_get t (.string key) with
  | none => rfl
  | some v => cases hv : luaV_tostring v <;> simp [hv]

theorem lastText_keyReads_get (key : String) (t : LuaTable) (hnd : (t.map Prod.fst).Nodup)
    (hnul : ∀ e ∈ t, nulFreeKey e.1 = true) :
    lastText (fun e => keyReads key e.1) t none
      = (luaH_get t (.string key)).bind luaV_tostring := by
  have h := lastText_get key (fun _ => true) t none hnd hnul
  have hp : (fun e : LuaValue × LuaValue => keyReads key e.1)
      = fun e => keyReads key e.1 && (fun _ => true) e.2 := by
    funext e
    simp
  rw [hp, h]
  cases luaH_get t (.string key) <;> simp

/-- C3, as stated, fails: loading `{name=5}` sets `name` to "5", where the
claim leaves the field unset for a number value; `lua_isstring` accepts the
number and `lua_tostring` gives its text. -/
theorem tabLoader_number_value_is_loaded :
    (load_lua_table 2 (world [.table 0] [[(.string "name", .number 5)]])
        tabLoader (some TabInfo.zero)).toOption.map (fun r => (r.1, r.2.2))
      = some (LoaderResult.LOADER_OK,
          some { name := some "5", command := none, encoding := none, working_dir := none }) := by
  decide

theorem tabLoader_load (w : Termit) (r : Nat) (fuel : Nat)
    (h1 : index2adr w.L 1 = some (.table r))
    (hwf : TableWF (tableAt w.L r)) (hnn : NoNumberKey (tableAt w.L r))
    (hfuel : (tableAt w.L r).length < fuel) :
    ∃ w1, load_lua_table fuel w tabLoader (some TabInfo.zero) =
      .ok (.LOADER_OK, w1, some (tabInfoOf (tableAt w.L r))) := by
  obtain ⟨w1, d1, hload, _, _, hrel⟩ :=
    load_lua_table_ok tabLoader _ tabLoader_spec w TabInfo.zero r fuel h1 hwf hnn hfuel
  have hd1 := tab_visits (tableAt w.L r) TabInfo.zero d1 hrel
  refine ⟨w1, ?_⟩
  rw [hload, hd1]
  rfl

/-- C3 (amended). Loading a table (well formed, without number keys, at
argument 1) into a zeroed `TabInfo` with `load_lua_table` and `tabLoader`
returns `LOADER_OK` and sets each of `name`, `command`, `encoding` and
`working_dir` exactly when the table has an entry whose key reads as that name
(as a C string, up to its first NUL) and whose value is a string or a number;
the field is then the C string of the value of the last such entry in table
order (a string up to its first NUL, a number as `%.14g` prints it). The field
stays unset when there is no such entry. No other entry has an effect on the
record. `openTab` on such a table ends with the call of
`termit_append_tab_with_details` on that record. When no string key of the
table holds a NUL, the entry taken for a field is the one under that key. -/
theorem tabLoader_fields (w : Termit) (r : Nat) (fuel : Nat)
    (h1 : index2adr w.L 1 = some (.table r))
    (hwf : TableWF (tableAt w.L r)) (hnn : NoNumberKey (tableAt w.L r))
    (hfuel : (tableAt w.L r).length < fuel) :
    (∃ w1, load_lua_table fuel w tabLoader (some TabInfo.zero) =
      .ok (.LOADER_OK, w1, some
        { name := lastText (tabEntry "name") (tableAt w.L r) none,
          command := lastText (tabEntry "command") (tableAt w.L r) none,
          encoding := lastText (tabEntry "encoding") (tableAt w.L r) none,
          working_dir := lastText (tabEntry "working_dir") (tableAt w.L r) none })) ∧
    (∃ w1, termit_lua_openTab fuel w =
      .ok (0, hostCall (.termit_append_tab_with_details (tabInfoOf (tableAt w.L r))) w1)) ∧
    ((∀ e ∈ tableAt w.L r, nulFreeKey e.1 = true) →
      tabInfoOf (tableAt w.L r) =
        { name := (luaH_get (tableAt w.L r) (.string "name")).bind luaV_tostring,
          command := (luaH_get (tableAt w.L r) (.string "command")).bind luaV_tostring,
          encoding := (luaH_get (tableAt w.L r) (.string "encoding")).bind luaV_tostring,
          working_dir :=
            (luaH_get (tableAt w.L r) (.string "working_dir")).bind luaV_tostring }) := by
  refine ⟨tabLoader_load w r fuel h1 hwf hnn hfuel, ?_, ?_⟩
  · obtain ⟨w1, hload⟩ := tabLoader_load (TRACE_MSG "termit_lua_openTab" w) r fuel h1 hwf hnn
      hfuel
    have htab : lua_istable (TRACE_MSG "termit_lua_openTab" w).L 1 = true := by
      show lua_istable w.L 1 = true
      simp [lua_istable, h1]
    refine ⟨w1, ?_⟩
    simp only [termit_lua_openTab, htab, hload]
    rfl
  · intro hnul
    have hf : ∀ key, lastText (tabEntry key) (tableAt w.L r) none
        = (luaH_get (tableAt w.L r) (.string key)).bind luaV_tostring := by
      intro key
      exact lastText_tabEntry_get key _ hwf.1 hnul
    simp [tabInfoOf, hf]

theorem tabLoader_fields_witness :
    (∃ w1, load_lua_table 4
        (world [.table 0]
          [[(.string "name", .string "x"), (.string "command", .string "y"),
            (.string "bogus", .number 123)]])
        tabLoader (some TabInfo.zero) =
      .ok (.LOADER_OK, w1, some
        { name := some "x", command := some "y", encoding := none, working_dir := none })) ∧
    (∃ w1, termit_lua_openTab 4
        (world [.table 0]
          [[(.string "name", .string "x"), (.string "command", .string "y"),
            (.string "bogus", .number 123)]]) =
      .ok (0, hostCall (.termit_append_tab_with_details
        { name := some "x", command := some "y", encoding := none, working_dir := none })
        w1)) ∧
    tabInfoOf [(.string "name", .string "x"), (.string "command", .string "y"),
        (.string "bogus", .number 123)] =
      { name := some "x", command := some "y", encoding := none, working_dir := none } :=
  ⟨(tabLoader_fields
      (world [.table 0]
        [[(.string "name", .string "x"), (.string "command", .string "y"),
          (.string "bogus", .number 123)]])
      0 4 (by decide) (by decide) (by decide) (by decide)).1,
   (tabLoader_fields
      (world [.table 0]
        [[(.string "name", .string "x"), (.string "command", .string "y"),
          (.string "bogus", .number 123)]])
      0 4 (by decide) (by decide) (by decide) (by decide)).2.1,
   (tabLoader_fields
      (world [.table 0]
        [[(.string "name", .string "x"), (.string "command", .string "y"),
          (.string "bogus", .number 123)]])
      0 4 (by decide) (by decide) (by decide) (by decide)).2.2 (by decide)⟩

/-! ## The stack across `load_lua_table` -/

theorem recordVisit_spec :
    VisitorSpec recordVisit (fun s v d d1 => d1 = d ++ [(some s, some v)]) := by
  intro name w d base v hst
  refine ⟨?_, ⟨v, hst⟩, rfl⟩
  simp [recordVisit, index2adr_top w.L base v hst]

theorem recordVisit_visits (t : LuaTable) :
    ∀ d d1, visitRel (fun s v d d2 => d2 = d ++ [(some s, some v)]) t d d1 →
      d1 = d ++ stringEntries t := by
  induction t with
  | nil =>
    intro d d1 h
    simpa [visitRel, stringEntries] using h
  | cons e t ih =>
    intro d d1 h
    obtain ⟨k, v⟩ := e
    cases k with
    | string s =>
      simp only [visitRel] at h
      obtain ⟨d2, hd2, hrel⟩ := h
      rw [ih d2 d1 hrel, hd2]
      simp [stringEntries]
    | nil => simpa [stringEntries] using ih d d1 (by simpa [visitRel] using h)
    | boolean b => simpa [stringEntries] using ih d d1 (by simpa [visitRel] using h)
    | number n => simpa [stringEntries] using ih d d1 (by simpa [visitRel] using h)
    | function g => simpa [stringEntries] using ih d d1 (by simpa [visitRel] using h)
    | table q => simpa [stringEntries] using ih d d1 (by simpa [visitRel] using h)

theorem visitRel_no_string {δ : Type} (R : String → LuaValue → δ → δ → Prop)
    (t : LuaTable) (d d1 : δ) (hns : ∀ e ∈ t, isString e.1 = false)
    (h : visitRel R t d d1) : d1 = d := by
  induction t with
  | nil => simpa [visitRel] using h
  | cons e t ih =>
    obtain ⟨k, v⟩ := e
    have hk : isString k = false := hns (k, v) (List.mem_cons_self _ _)
    have ht : ∀ e ∈ t, isString e.1 = false := fun e he => hns e (List.mem_cons_of_mem _ he)
    cases k with
    | string s => simp [isString] at hk
    | nil => exact ih ht (by simpa [visitRel] using h)
    | boolean b => exact ih ht (by simpa [visitRel] using h)
    | number n => exact ih ht (by simpa [visitRel] using h)
    | function g => exact ih ht (by simpa [visitRel] using h)
    | table q => exact ih ht (by simpa [visitRel] using h)

/-- C2 (amended). For a non-null context and a table at argument 1 that is
well formed and has no number key, `load_lua_table` returns `LOADER_OK` and
has called the visitor once for each string-keyed entry, in table order, and
for no entry under a boolean, table or function key: the record the visitor
leaves is the one that those visits lead to, and `recordVisit` has recorded
exactly the string-keyed entries. When the table has no string key at all the
visitor is not called and the record is as it was. -/
theorem load_lua_table_visits_string_keys {δ : Type} (func : LoaderFunc δ)
    (R : String → LuaValue → δ → δ → Prop) (hv : VisitorSpec func R)
    (w : Termit) (d : δ) (r : Nat) (fuel : Nat)
    (h1 : index2adr w.L 1 = some (.table r))
    (hwf : TableWF (tableAt w.L r)) (hnn : NoNumberKey (tableAt w.L r))
    (hfuel : (tableAt w.L r).length < fuel) :
    (∃ w1 d1, load_lua_table fuel w func (some d) = .ok (.LOADER_OK, w1, some d1) ∧
      visitRel R (tableAt w.L r) d d1) ∧
    (∃ w1, load_lua_table fuel w recordVisit (some []) =
      .ok (.LOADER_OK, w1, some (stringEntries (tableAt w.L r)))) ∧
    ((∀ e ∈ tableAt w.L r, isString e.1 = false) →
      ∃ w1, load_lua_table fuel w func (some d) = .ok (.LOADER_OK, w1, some d)) := by
  obtain ⟨w1, d1, hload, _, _, hrel⟩ :=
    load_lua_table_ok func R hv w d r fuel h1 hwf hnn hfuel
  obtain ⟨w2, d2, hload2, _, _, hrel2⟩ :=
    load_lua_table_ok recordVisit _ recordVisit_spec w [] r fuel h1 hwf hnn hfuel
  refine ⟨⟨w1, d1, hload, hrel⟩, ⟨w2, ?_⟩, ?_⟩
  · rw [hload2, recordVisit_visits _ _ _ hrel2]
    simp
  · intro hns
    refine ⟨w1, ?_⟩
    rw [hload, visitRel_no_string R _ d d1 hns hrel]

theorem load_lua_table_visits_string_keys_witness :
    (∃ w1 d1, load_lua_table 3
        (world [.table 0] [[(.string "name", .string "x"), (.boolean true, .string "y")]])
        tabLoader (some TabInfo.zero) = .ok (.LOADER_OK, w1, some d1) ∧
      visitRel (fun s v d d2 => d2 = tabStep s v d)
        [(.string "name", .string "x"), (.boolean true, .string "y")] TabInfo.zero d1) ∧
    (∃ w1, load_lua_table 3
        (world [.table 0] [[(.string "name", .string "x"), (.boolean true, .string "y")]])
        recordVisit (some []) =
      .ok (.LOADER_OK, w1, some [(some "name", some (LuaValue.string "x"))])) ∧
    (∃ w1, load_lua_table 3
        (world [.table 0] [[(.boolean true, .string "y"), (.function 4, .number 1)]])
        tabLoader (some TabInfo.zero) = .ok (.LOADER_OK, w1, some TabInfo.zero)) :=
  ⟨(load_lua_table_visits_string_keys tabLoader _ tabLoader_spec
      (world [.table 0] [[(.string "name", .string "x"), (.boolean true, .string "y")]])
      TabInfo.zero 0 3 (by decide) (by decide) (by decide) (by decide)).1,
   (load_lua_table_visits_string_keys tabLoader _ tabLoader_spec
      (world [.table 0] [[(.string "name", .string "x"), (.boolean true, .string "y")]])
      TabInfo.zero 0 3 (by decide) (by decide) (by decide) (by decide)).2.1,
   (load_lua_table_visits_string_keys tabLoader _ tabLoader_spec
      (world [.table 0] [[(.boolean true, .string "y"), (.function 4, .number 1)]])
      TabInfo.zero 0 3 (by decide) (by decide) (by decide) (by decide)).2.2 (by decide)⟩

/-- C10, as stated, fails: with two arguments the value that
`load_lua_table` removes is the second argument, and the input at position 1
stays on the stack, both on the table path (`{k="a"}, "x"`) and on the
non-table path (`5, "x"`). -/
theorem load_lua_table_pops_top_not_input :
    (load_lua_table 2 (world [.table 0, .string "x"] [[(.string "k", .string "a")]])
        recordVisit (some [])).toOption.map (fun r => (r.1, r.2.1.L.stack))
      = some (LoaderResult.LOADER_OK, [LuaValue.table 0]) ∧
    (load_lua_table 0 (world [.number 5, .string "x"] [])
        recordVisit (some [])).toOption.map (fun r => (r.1, r.2.1.L.stack))
      = some (LoaderResult.LOADER_FAILED, [LuaValue.number 5]) := by
  decide

/-- C10 (amended). With a NULL context, and with nil at position 1,
`load_lua_table` leaves the interpreter exactly as it found it. With another
value that is not a table at position 1, and with a table there (well formed,
without number keys, walked by a visitor that keeps to its frame), it removes
exactly one value, the topmost one: every key and value pushed during the walk
is popped again and nothing else is removed. The value removed is the input at
position 1 when the call has one argument. -/
theorem load_lua_table_stack {δ : Type} (func : LoaderFunc δ)
    (R : String → LuaValue → δ → δ → Prop) (hv : VisitorSpec func R)
    (w : Termit) (fuel : Nat) :
    (∃ w1, load_lua_table fuel w func none = .ok (.LOADER_FAILED, w1, none) ∧ w1.L = w.L) ∧
    (∀ d, index2adr w.L 1 = some .nil →
      ∃ w1, load_lua_table fuel w func (some d) = .ok (.LOADER_FAILED, w1, some d) ∧
        w1.L = w.L) ∧
    (∀ d v, index2adr w.L 1 = some v → v ≠ .nil → (∀ r, v ≠ .table r) →
      ∃ w1, load_lua_table fuel w func (some d) = .ok (.LOADER_FAILED, w1, some d) ∧
        w1.L = { w.L with stack := w.L.stack.dropLast }) ∧
    (∀ d r, index2adr w.L 1 = some (.table r) → TableWF (tableAt w.L r) →
      NoNumberKey (tableAt w.L r) → (tableAt w.L r).length < fuel →
      ∃ w1 d1, load_lua_table fuel w func (some d) = .ok (.LOADER_OK, w1, some d1) ∧
        w1.L.stack = w.L.stack.dropLast ∧ w1.L.heap = w.L.heap) := by
  refine ⟨⟨_, rfl, rfl⟩, ?_, ?_, ?_⟩
  · intro d h1
    have hnil : lua_isnil w.L 1 = true := by simp [lua_isnil, h1]
    exact ⟨TRACE_MSG "tabInfo not defined: skipping" w, by simp [load_lua_table, hnil], rfl⟩
  · intro d v h1 hv1 hv2
    have hnil : lua_isnil w.L 1 = false := by
      cases v <;> simp_all [lua_isnil]
    have htab : lua_istable w.L 1 = false := by
      cases v <;> simp_all [lua_istable]
    obtain ⟨rest, hst⟩ := index2adr_one_inv w.L v h1
    have hpop := lua_pop_one_dropLast (TRACE_MSG "tabInfo is not table: skipping" w).L
      (by simp [TRACE_MSG, hst])
    refine ⟨setL (TRACE_MSG "tabInfo is not table: skipping" w)
      { w.L with stack := w.L.stack.dropLast }, ?_, rfl⟩
    simp only [load_lua_table, hnil, htab, hpop]
    simp [TRACE_MSG]
  · intro d r h1 hwf hnn hfuel
    obtain ⟨w1, d1, hload, hs, hh, _⟩ :=
      load_lua_table_ok func R hv w d r fuel h1 hwf hnn hfuel
    exact ⟨w1, d1, hload, hs, hh⟩

theorem load_lua_table_stack_witness :
    (∃ w1, load_lua_table 2 (world [.table 0] [[(.string "name", .string "x")]])
        tabLoader none = .ok (.LOADER_FAILED, w1, none) ∧
        w1.L = (world [.table 0] [[(.string "name", .string "x")]]).L) ∧
    (∃ w1, load_lua_table 2 (world [.nil, .number 1] []) tabLoader (some TabInfo.zero)
        = .ok (.LOADER_FAILED, w1, some TabInfo.zero) ∧
        w1.L = (world [.nil, .number 1] []).L) ∧
    (∃ w1, load_lua_table 2 (world [.number 7] []) tabLoader (some TabInfo.zero)
        = .ok (.LOADER_FAILED, w1, some TabInfo.zero) ∧
        w1.L = { (world [.number 7] []).L with stack := [LuaValue.number 7].dropLast }) ∧
    (∃ w1 d1, load_lua_table 2 (world [.table 0] [[(.string "name", .string "x")]])
        tabLoader (some TabInfo.zero) = .ok (.LOADER_OK, w1, some d1) ∧
        w1.L.stack = [LuaValue.table 0].dropLast ∧
        w1.L.heap = [[(.string "name", .string "x")]]) :=
  ⟨(load_lua_table_stack tabLoader _ tabLoader_spec
      (world [.table 0] [[(.string "name", .string "x")]]) 2).1,
   (load_lua_table_stack tabLoader _ tabLoader_spec (world [.nil, .number 1] []) 2).2.1
      TabInfo.zero (by decide),
   (load_lua_table_stack tabLoader _ tabLoader_spec (world [.number 7] []) 2).2.2.1
      TabInfo.zero (.number 7) (by decide) (by decide) (by intro r; exact LuaValue.noConfusion),
   (load_lua_table_stack tabLoader _ tabLoader_spec
      (world [.table 0] [[(.string "name", .string "x")]]) 2).2.2.2
      TabInfo.zero 0 (by decide) (by decide) (by decide) (by decide)⟩

/-! ## Menus -/

theorem lua_tostring_top_state (L : LuaState) (base : List LuaValue) (v : LuaValue)
    (h : L.stack = base ++ [v]) :
    ∃ v1, lua_tostring L (-1) = (luaV_tostring v, { L with stack := base ++ [v1] }) := by
  obtain ⟨hfst, ⟨v1, hstk⟩, hheap⟩ := lua_tostring_top L base v h
  have hreg := (lua_tostring_snd_registry L (-1)).1
  refine ⟨v1, ?_⟩
  rcases hts : lua_tostring L (-1) with ⟨value, L3⟩
  rw [hts] at hfst hstk hheap hreg
  simp only at hfst hstk hheap hreg
  cases L3
  simp_all

theorem loadMenu_item_loop_done (n : Nat) (w : Termit) (umi : UserMenuItem) (L1 : LuaState)
    (hnext : lua_next w.L (-2) = .ok (0, L1)) :
    loadMenu_item_loop (n + 1) w umi = .ok (setL w L1, umi) := by
  simp [loadMenu_item_loop, hnext]

theorem loadMenu_item_loop_visit (n : Nat) (w : Termit) (umi : UserMenuItem)
    (L1 : LuaState) (base : List LuaValue) (s : String) (v : LuaValue)
    (hnext : lua_next w.L (-2) = .ok (1, L1)) (hL1 : L1.stack = base ++ [.string s, v]) :
    loadMenu_item_loop (n + 1) w umi =
      loadMenu_item_loop n (setL w { L1 with stack := base ++ [.string s] })
        (itemStep (cstr s) v umi) := by
  have hisstr : lua_isstring L1 (-2) = true := by
    rw [lua_isstring_below_top L1 base _ v hL1]
    rfl
  have hts := lua_tostring_string_below_top L1 base s v hL1
  obtain ⟨v1, hts1⟩ := lua_tostring_top_state L1 (base ++ [.string s]) v (by simp [hL1])
  have hpop := lua_pop_one { L1 with stack := (base ++ [LuaValue.string s]) ++ [v1] }
    (base ++ [LuaValue.string s]) v1 rfl
  simp only [loadMenu_item_loop, hnext, hisstr, hts, hts1]
  by_cases h1 : cstr s = "name"
  · simp [h1, itemStep, strcmp_eq_zero, g_strdup] at hpop ⊢
    simp [hpop]
  · by_cases h2 : cstr s = "action"
    · simp [h2, itemStep, strcmp_eq_zero, g_strdup] at hpop ⊢
      simp [hpop]
    · simp [h1, h2, itemStep, strcmp_eq_zero] at hpop ⊢
      simp [hpop]

theorem loadMenu_item_loop_skip (n : Nat) (w : Termit) (umi : UserMenuItem)
    (L1 : LuaState) (base : List LuaValue) (k v : LuaValue)
    (hnext : lua_next w.L (-2) = .ok (1, L1)) (hL1 : L1.stack = base ++ [k, v])
    (hk : luaV_tostring k = none) :
    loadMenu_item_loop (n + 1) w umi =
      loadMenu_item_loop n (setL w { L1 with stack := base ++ [k] }) umi := by
  have hisstr : lua_isstring L1 (-2) = false := by
    rw [lua_isstring_below_top L1 base _ v hL1, hk]
    rfl
  have hpop := lua_pop_one L1 (base ++ [k]) v (by simp [hL1])
  simp only [loadMenu_item_loop, hnext, hisstr]
  simp [hpop]

theorem loadMenu_item_loop_spec (q : Nat) (base : List LuaValue) :
    ∀ (post pre : LuaTable) (w : Termit) (umi : UserMenuItem) (key : LuaValue) (fuel : Nat),
      tableAt w.L q = pre ++ post →
      TableWF (pre ++ post) →
      NoNumberKey post →
      w.L.stack = (base ++ [.table q]) ++ [key] →
      luaH_next (pre ++ post) key = .ok post.head? →
      post.length < fuel →
      loadMenu_item_loop fuel w umi =
        .ok (setL w { w.L with stack := base ++ [.table q] }, itemFold post umi) := by
  intro post
  induction post with
  | nil =>
    intro pre w umi key fuel ht hwf hnn hst hkey hfuel
    obtain ⟨n, rfl⟩ : ∃ n, fuel = n + 1 := ⟨fuel - 1, by omega⟩
    have hi := index2adr_below_top w.L base (.table q) key (by simpa using hst)
    have hnext := lua_next_done w.L (-2) q (base ++ [.table q]) key hi hst
      (by rw [ht]; simpa using hkey)
    rw [loadMenu_item_loop_done n w umi _ hnext]
    rfl
  | cons e post ih =>
    intro pre w umi key fuel ht hwf hnn hst hkey hfuel
    obtain ⟨k, v⟩ := e
    obtain ⟨n, rfl⟩ : ∃ n, fuel = n + 1 := ⟨fuel - 1, by omega⟩
    have hfuel1 : post.length < n := by simp at hfuel; omega
    have hi := index2adr_below_top w.L base (.table q) key (by simpa using hst)
    have hnext := lua_next_more w.L (-2) q (base ++ [.table q]) key k v hi hst
      (by rw [ht]; simpa using hkey)
    obtain ⟨hk_nil, hpre⟩ := tableWF_split pre post k v hwf
    have hsplit : pre ++ (k, v) :: post = (pre ++ [(k, v)]) ++ post := by simp
    have hnn1 : NoNumberKey post := fun e he => hnn e (List.mem_cons_of_mem _ he)
    have hknum : isNumber k = false := hnn (k, v) (List.mem_cons_self _ _)
    have hkey1 : luaH_next ((pre ++ [(k, v)]) ++ post) k = .ok post.head? := by
      rw [← hsplit]; exact luaH_next_mid_plain pre post k v hk_nil hknum hpre
    have hwf1 : TableWF ((pre ++ [(k, v)]) ++ post) := by rw [← hsplit]; exact hwf
    have hih := ih (pre ++ [(k, v)])
      (setL w { w.L with stack := (base ++ [LuaValue.table q]) ++ [k] })
    by_cases hks : ∃ s, k = .string s
    · obtain ⟨s, rfl⟩ := hks
      rw [loadMenu_item_loop_visit n w umi _ (base ++ [.table q]) s v hnext rfl]
      exact hih (itemStep (cstr s) v umi) (.string s) n (by rw [← hsplit, ← ht]; rfl) hwf1
        hnn1 rfl hkey1 hfuel1
    · have hk : luaV_tostring k = none := by
        cases k with
        | string s => exact absurd ⟨s, rfl⟩ hks
        | number m => simp [isNumber] at hknum
        | _ => rfl
      rw [loadMenu_item_loop_skip n w umi _ (base ++ [.table q]) k v hnext rfl hk]
      have hfold : itemFold ((k, v) :: post) umi = itemFold post umi := by
        cases k with
        | string s => exact absurd ⟨s, rfl⟩ hks
        | _ => rfl
      rw [hfold]
      exact hih umi k n (by rw [← hsplit, ← ht]; rfl) hwf1 hnn1 rfl hkey1 hfuel1

theorem itemFold_fields (t : LuaTable) :
    ∀ umi : UserMenuItem,
      itemFold t umi =
        { name := lastText (fun e => keyReads "name" e.1) t umi.name,
          userFunc := lastText (fun e => keyReads "action" e.1) t umi.userFunc } := by
  induction t with
  | nil => intro umi; rfl
  | cons e t ih =>
    intro umi
    obtain ⟨k, v⟩ := e
    simp only [lastText_cons]
    by_cases hks : ∃ s, k = .string s
    · obtain ⟨s, rfl⟩ := hks
      simp only [itemFold]
      rw [ih _]
      by_cases h1 : cstr s = "name"
      · simp [keyReads, itemStep, h1]
      · by_cases h2 : cstr s = "action"
        · simp [keyReads, itemStep, h2]
        · simp [keyReads, itemStep, h1, h2]
    · have hfold : itemFold ((k, v) :: t) umi = itemFold t umi := by
        cases k with
        | string s => exact absurd ⟨s, rfl⟩ hks
        | _ => rfl
      have hne : ∀ key : String, keyReads key k = false := by
        intro key
        cases k with
        | string s => exact absurd ⟨s, rfl⟩ hks
        | _ => rfl
      rw [hfold, ih umi]
      simp [hne]

theorem itemFold_eq_itemOf (L : LuaState) (q : Nat) :
    itemFold (tableAt L q) { name := none, userFunc := none } = itemOf L (.table q) := by
  rw [itemFold_fields]
  rfl

theorem keysWF_split (pre post : LuaTable) (k v : LuaValue)
    (hwf : KeysWF (pre ++ (k, v) :: post)) :
    k ≠ .nil ∧ luaO_rawequalObj k k = true ∧
      (∀ e ∈ pre, luaO_rawequalObj e.1 k = false) := by
  obtain ⟨hpw, hself⟩ := hwf
  have hk := hself k (by simp)
  refine ⟨hk.1, hk.2, ?_⟩
  intro e he
  rw [List.map_append, List.pairwise_append] at hpw
  exact hpw.2.2 e.1 (List.mem_map_of_mem Prod.fst he) k (by simp)

theorem loadMenu_loop_done (inner n : Nat) (w : Termit) (items : List UserMenuItem)
    (L1 : LuaState) (hnext : lua_next w.L 1 = .ok (0, L1)) :
    loadMenu_loop inner (n + 1) w items = .ok (setL w L1, items) := by
  simp [loadMenu_loop, hnext]

theorem loadMenu_loop_item (inner n : Nat) (w w2 : Termit) (items : List UserMenuItem)
    (umi : UserMenuItem) (L1 L3 : LuaState) (base : List LuaValue) (k v : LuaValue)
    (hnext : lua_next w.L 1 = .ok (1, L1)) (hL1 : L1.stack = base ++ [k, v])
    (hk : (luaV_tostring k).isSome = true)
    (hin : loadMenu_item_loop inner (setL w (lua_pushnil L1))
      { name := none, userFunc := none } = .ok (w2, umi))
    (hpop : lua_pop w2.L 1 = .ok L3) :
    loadMenu_loop inner (n + 1) w items =
      loadMenu_loop inner n (setL w2 L3) (items ++ [umi]) := by
  have hisstr : lua_isstring L1 (-2) = true := by
    rw [lua_isstring_below_top L1 base _ v hL1, hk]
  simp only [loadMenu_loop, hnext, hisstr, hin]
  simp [hpop]

theorem loadMenu_loop_skip (inner n : Nat) (w : Termit) (items : List UserMenuItem)
    (L1 L3 : LuaState) (base : List LuaValue) (k v : LuaValue)
    (hnext : lua_next w.L 1 = .ok (1, L1)) (hL1 : L1.stack = base ++ [k, v])
    (hk : luaV_tostring k = none) (hpop : lua_pop L1 1 = .ok L3) :
    loadMenu_loop inner (n + 1) w items = loadMenu_loop inner n (setL w L3) items := by
  have hisstr : lua_isstring L1 (-2) = false := by
    rw [lua_isstring_below_top L1 base _ v hL1, hk]
    rfl
  simp only [loadMenu_loop, hnext, hisstr]
  simp [hpop]

theorem menuItems_congr (L1 L2 : LuaState) (t : LuaTable) (h : L1.heap = L2.heap) :
    menuItems L1 t = menuItems L2 t := by
  induction t with
  | nil => rfl
  | cons e t ih =>
    obtain ⟨k, v⟩ := e
    have hv : itemOf L1 v = itemOf L2 v := by
      cases v <;> simp [itemOf, tableAt, h]
    simp [menuItems, ih, hv]

theorem loadMenu_loop_spec (inner : Nat) (r : Nat) (args : List LuaValue) :
    ∀ (post pre : LuaTable) (w : Termit) (items : List UserMenuItem) (key : LuaValue)
      (fuel : Nat),
      tableAt w.L r = pre ++ post →
      KeysWF (pre ++ post) →
      (∀ e ∈ post, menuEntryOK w.L inner e = true) →
      w.L.stack = (.table r :: args) ++ [key] →
      luaH_next (pre ++ post) key = .ok post.head? →
      post.length < fuel →
      loadMenu_loop inner fuel w items =
        .ok (setL w { w.L with stack := .table r :: args }, items ++ menuItems w.L post) := by
  intro post
  induction post with
  | nil =>
    intro pre w items key fuel ht hwf hok hst hkey hfuel
    obtain ⟨n, rfl⟩ : ∃ n, fuel = n + 1 := ⟨fuel - 1, by omega⟩
    have hi := index2adr_one w.L (.table r) (args ++ [key]) (by simpa using hst)
    have hnext := lua_next_done w.L 1 r (.table r :: args) key hi hst
      (by rw [ht]; simpa using hkey)
    rw [loadMenu_loop_done inner n w items _ hnext]
    simp [menuItems]
  | cons e post ih =>
    intro pre w items key fuel ht hwf hok hst hkey hfuel
    obtain ⟨k, v⟩ := e
    obtain ⟨n, rfl⟩ : ∃ n, fuel = n + 1 := ⟨fuel - 1, by omega⟩
    have hfuel1 : post.length < n := by simp at hfuel; omega
    have hi := index2adr_one w.L (.table r) (args ++ [key]) (by simpa using hst)
    have hnext := lua_next_more w.L 1 r (.table r :: args) key k v hi hst
      (by rw [ht]; simpa using hkey)
    obtain ⟨hk_nil, hkk, hpre⟩ := keysWF_split pre post k v hwf
    have hsplit : pre ++ (k, v) :: post = (pre ++ [(k, v)]) ++ post := by simp
    have hkey1 : luaH_next ((pre ++ [(k, v)]) ++ post) k = .ok post.head? := by
      rw [← hsplit]; exact luaH_next_mid pre post k v hk_nil hkk hpre
    have hok1 : ∀ e ∈ post, menuEntryOK w.L inner e = true :=
      fun e he => hok e (List.mem_cons_of_mem _ he)
    have hkv := hok (k, v) (List.mem_cons_self _ _)
    have hwf1 : KeysWF ((pre ++ [(k, v)]) ++ post) := by rw [← hsplit]; exact hwf
    have hbase : ∀ x y : LuaValue, (LuaValue.table r :: args) ++ [x, y]
        = ((LuaValue.table r :: args) ++ [x]) ++ [y] := by intro x y; simp
    have hih := ih (pre ++ [(k, v)])
      (setL w { w.L with stack := (LuaValue.table r :: args) ++ [k] })
    cases hk : luaV_tostring k with
    | none =>
      have hpop := lua_pop_one { w.L with stack := (LuaValue.table r :: args) ++ [k, v] }
        ((LuaValue.table r :: args) ++ [k]) v (hbase _ _)
      rw [loadMenu_loop_skip inner n w items _ _ _ k v hnext rfl hk hpop]
      have hitems : menuItems w.L ((k, v) :: post) = menuItems w.L post := by
        simp [menuItems, hk]
      rw [hitems]
      have := hih items k n (by rw [← hsplit, ← ht]; rfl) hwf1 hok1 rfl hkey1 hfuel1
      rw [menuItems_congr
        (setL w { w.L with stack := (LuaValue.table r :: args) ++ [k] }).L w.L post rfl] at this
      exact this
    | some s =>
      simp only [menuEntryOK, hk] at hkv
      cases v with
      | table q =>
        simp only [Bool.and_eq_true, decide_eq_true_eq] at hkv
        obtain ⟨⟨hqwf, hqnn⟩, hqlen⟩ := hkv
        have hin := loadMenu_item_loop_spec q ((LuaValue.table r :: args) ++ [k])
          (tableAt w.L q) []
          (setL w (lua_pushnil
            { w.L with stack := (LuaValue.table r :: args) ++ [k, .table q] }))
          { name := none, userFunc := none } .nil inner rfl (by simpa using hqwf) hqnn
          (by simp [setL, lua_pushnil]) (by simp [luaH_next]) hqlen
        rw [itemFold_eq_itemOf w.L q] at hin
        have hpop := lua_pop_one
          { w.L with stack := ((LuaValue.table r :: args) ++ [k]) ++ [LuaValue.table q] }
          ((LuaValue.table r :: args) ++ [k]) (.table q) rfl
        rw [loadMenu_loop_item inner n w _ items _ _ _ _ k (.table q) hnext rfl
          (by rw [hk]; rfl) hin hpop]
        have hitems : menuItems w.L ((k, .table q) :: post)
            = itemOf w.L (.table q) :: menuItems w.L post := by
          simp [menuItems, hk]
        rw [hitems]
        have := hih (items ++ [itemOf w.L (.table q)]) k n (by rw [← hsplit, ← ht]; rfl)
          hwf1 hok1 rfl hkey1 hfuel1
        rw [menuItems_congr
          (setL w { w.L with stack := (LuaValue.table r :: args) ++ [k] }).L w.L post rfl,
          List.append_assoc] at this
        exact this
      | nil => simp at hkv
      | boolean b => simp at hkv
      | number m => simp at hkv
      | string s1 => simp at hkv
      | function g => simp at hkv

theorem loadMenu_ok (w : Termit) (r : Nat) (s : String) (rest : List LuaValue) (fuel : Nat)
    (menus : List UserMenu)
    (hst : w.L.stack = .table r :: .string s :: rest)
    (hwf : KeysWF (tableAt w.L r))
    (hok : ∀ e ∈ tableAt w.L r, menuEntryOK w.L fuel e = true)
    (hfuel : (tableAt w.L r).length < fuel) :
    ∃ w1, loadMenu fuel w menus =
        .ok (0, w1, menus ++ [{ name := some (cstr s), items := menuItems w.L (tableAt w.L r) }]) ∧
      w1.configs = w.configs ∧ w1.calls = w.calls ∧
      w1.L = { w.L with stack := (LuaValue.table r :: .string s :: rest).dropLast } := by
  have hn1 : lua_isnil w.L 1 = false := by simp [lua_isnil, index2adr, stackPos, hst]
  have hn2 : lua_isnil w.L 2 = false := by simp [lua_isnil, index2adr, stackPos, hst]
  have ht1 : lua_istable w.L 1 = true := by simp [lua_istable, index2adr, stackPos, hst]
  have hs2 : lua_isstring w.L 2 = true := by simp [lua_isstring, index2adr, stackPos, hst]
  have hts : lua_tostring w.L 2 = (some (cstr s), w.L) := by simp [lua_tostring, stackPos, hst]
  have hloop := loadMenu_loop_spec fuel r (.string s :: rest) (tableAt w.L r) []
    (setL (TRACE_MSG ("Menu: " ++ fmt_s (some (cstr s))) (setL w w.L))
      (lua_pushnil (TRACE_MSG ("Menu: " ++ fmt_s (some (cstr s))) (setL w w.L)).L))
    [] .nil fuel rfl (by simpa using hwf) hok (by simp [setL, lua_pushnil, TRACE_MSG, hst])
    (by simp [luaH_next]) hfuel
  rw [menuItems_congr
    (setL (TRACE_MSG ("Menu: " ++ fmt_s (some (cstr s))) (setL w w.L))
      (lua_pushnil (TRACE_MSG ("Menu: " ++ fmt_s (some (cstr s))) (setL w w.L)).L)).L w.L _ rfl,
    List.nil_append] at hloop
  have hpop := lua_pop_one_dropLast
    { w.L with stack := LuaValue.table r :: .string s :: rest } (by simp)
  refine ⟨TRACE_MSG "loadMenu" (setL (TRACE_MSG "loadMenu"
      (setL (setL (TRACE_MSG ("Menu: " ++ fmt_s (some (cstr s))) (setL w w.L))
          (lua_pushnil (TRACE_MSG ("Menu: " ++ fmt_s (some (cstr s))) (setL w w.L)).L))
        { w.L with stack := LuaValue.table r :: .string s :: rest }))
      { w.L with stack := (LuaValue.table r :: .string s :: rest).dropLast }), ?_, rfl, rfl, rfl⟩
  simp only [loadMenu, hn1, hn2, ht1, hs2, hts, Bool.or_self, Bool.not_true, Bool.false_eq_true,
    if_false]
  rw [hloop]
  have hpop1 : lua_pop (TRACE_MSG "loadMenu"
      (setL (setL (TRACE_MSG ("Menu: " ++ fmt_s (some (cstr s))) (setL w w.L))
          (lua_pushnil (TRACE_MSG ("Menu: " ++ fmt_s (some (cstr s))) (setL w w.L)).L))
        { (setL (TRACE_MSG ("Menu: " ++ fmt_s (some (cstr s))) (setL w w.L))
            (lua_pushnil (TRACE_MSG ("Menu: " ++ fmt_s (some (cstr s))) (setL w w.L)).L)).L with
          stack := LuaValue.table r :: .string s :: rest })).L 1
      = .ok { w.L with stack := (LuaValue.table r :: .string s :: rest).dropLast } := hpop
  simp only [hpop1]
  rfl

/-- C6, as stated, fails: `addMenu({ {name="a", action="b"} }, "M")` gives the
outer table the number key 1 and no string key, yet the menu gets one item;
the outer loop tests the key with `lua_isstring`, which a number passes. -/
theorem addMenu_number_keyed_item :
    (termit_lua_addMenu 3
        (world [.table 0, .string "M"]
          [[(.number 1, .table 1)],
           [(.string "name", .string "a"), (.string "action", .string "b")]])).toOption.map
        (fun r => r.2.configs.user_menus)
      = some [{ name := some "M",
                items := [{ name := some "a", userFunc := some "b" }] }] := by
  decide

/-- C6 (amended). For a call with a well-formed table at argument 1 and a
string at argument 2, where every entry of the table under a string or number
key is a well-formed table without number keys: `addMenu` appends exactly one
`UserMenu` to `user_menus` and leaves `user_popup_menus` as it is
(`addPopupMenu`: the other way round), reports no error, and the menu is named
by argument 2 (read as a C string, up to its first NUL) and holds one
`UserMenuItem` per outer entry whose key is a string or a number, in table
order. The `name` (`userFunc`) of an item is the C string of the value of the
last nested entry whose key reads as "name" ("action"): a string up to its
first NUL, a number as `%.14g` prints it, and unset when there is no such entry
or that value has another type. When no key of the nested table holds a NUL,
that entry is the one under the key "name" ("action"). -/
theorem addMenu_appends (w : Termit) (r : Nat) (s : String) (rest : List LuaValue)
    (fuel : Nat)
    (hst : w.L.stack = .table r :: .string s :: rest)
    (hwf : KeysWF (tableAt w.L r))
    (hok : ∀ e ∈ tableAt w.L r, menuEntryOK w.L fuel e = true)
    (hfuel : (tableAt w.L r).length < fuel) :
    (∃ w1, termit_lua_addMenu fuel w = .ok (0, w1) ∧
      w1.configs.user_menus = w.configs.user_menus ++
        [{ name := some (cstr s), items := menuItems w.L (tableAt w.L r) }] ∧
      w1.configs.user_popup_menus = w.configs.user_popup_menus ∧ w1.calls = w.calls) ∧
    (∃ w1, termit_lua_addPopupMenu fuel w = .ok (0, w1) ∧
      w1.configs.user_popup_menus = w.configs.user_popup_menus ++
        [{ name := some (cstr s), items := menuItems w.L (tableAt w.L r) }] ∧
      w1.configs.user_menus = w.configs.user_menus ∧ w1.calls = w.calls) ∧
    (∀ q, TableWF (tableAt w.L q) → (∀ e ∈ tableAt w.L q, nulFreeKey e.1 = true) →
      itemOf w.L (.table q) =
        { name := (luaH_get (tableAt w.L q) (.string "name")).bind luaV_tostring,
          userFunc := (luaH_get (tableAt w.L q) (.string "action")).bind luaV_tostring }) := by
  refine ⟨?_, ?_, ?_⟩
  · obtain ⟨w1, hload, hc, hcalls, _⟩ :=
      loadMenu_ok w r s rest fuel w.configs.user_menus hst hwf hok hfuel
    refine ⟨{ w1 with configs := { w1.configs with user_menus := w.configs.user_menus ++
      [{ name := some (cstr s), items := menuItems w.L (tableAt w.L r) }] } },
      ?_, rfl, ?_, hcalls⟩
    · simp [termit_lua_addMenu, hload]
    · simp [hc]
  · obtain ⟨w1, hload, hc, hcalls, _⟩ :=
      loadMenu_ok w r s rest fuel w.configs.user_popup_menus hst hwf hok hfuel
    refine ⟨{ w1 with configs := { w1.configs with user_popup_menus :=
      w.configs.user_popup_menus ++
        [{ name := some (cstr s), items := menuItems w.L (tableAt w.L r) }] } },
      ?_, rfl, ?_, hcalls⟩
    · simp [termit_lua_addPopupMenu, hload]
    · simp [hc]
  · intro q hqwf hqnul
    simp only [itemOf]
    rw [lastText_keyReads_get "name" _ hqwf.1 hqnul,
      lastText_keyReads_get "action" _ hqwf.1 hqnul]

theorem addMenu_appends_witness :
    (∃ w1, termit_lua_addMenu 3 twoItemWorld = .ok (0, w1) ∧
      w1.configs.user_menus = [] ++
        [{ name := some "M",
           items := [{ name := some "n1", userFunc := none },
                     { name := none, userFunc := some "a2" }] }] ∧
      w1.configs.user_popup_menus = [] ∧ w1.calls = []) ∧
    (∃ w1, termit_lua_addPopupMenu 3 twoItemWorld = .ok (0, w1) ∧
      w1.configs.user_popup_menus = [] ++
        [{ name := some "M",
           items := [{ name := some "n1", userFunc := none },
                     { name := none, userFunc := some "a2" }] }] ∧
      w1.configs.user_menus = [] ∧ w1.calls = []) ∧
    itemOf twoItemWorld.L (.table 1) = { name := some "n1", userFunc := none } :=
  ⟨(addMenu_appends twoItemWorld 0 "M" [] 3 rfl (by decide) (by decide) (by decide)).1,
   (addMenu_appends twoItemWorld 0 "M" [] 3 rfl (by decide) (by decide) (by decide)).2.1,
   (addMenu_appends twoItemWorld 0 "M" [] 3 rfl (by decide) (by decide) (by decide)).2.2
      1 (by decide) (by decide)⟩

end LuaApi
